import Mathlib

/-!
# Shallow embedding of the lensy ray-tracing core (src/lensy.c, src/lensy.h)

The C doubles are modelled by exact real numbers; `a[3]` vectors by `Vec3`.
C's total-order floating comparisons become the corresponding real
comparisons.  Division follows Lean's convention `x / 0 = 0` on the (guarded
or unreachable) zero-denominator paths.  The `pathkey` provenance string of
`struct lensy_ray_struct` (an opaque formatted text key) is outside the model;
no claim refers to it.  `malloc` returning a block of indeterminate contents
is modelled by an explicit `heap` parameter giving those contents.
-/

noncomputable section

/-- A three-component double vector `double a[3]`, `<x, y, z>`. -/
structure Vec3 where
  x : ℝ
  y : ℝ
  z : ℝ

attribute [ext] Vec3

/-- Componentwise sum (the C code writes the three components out). -/
def vadd (a b : Vec3) : Vec3 := ⟨a.x + b.x, a.y + b.y, a.z + b.z⟩

/-- Componentwise difference. -/
def vsub (a b : Vec3) : Vec3 := ⟨a.x - b.x, a.y - b.y, a.z - b.z⟩

/-- Scalar multiple, componentwise. -/
def smul (t : ℝ) (a : Vec3) : Vec3 := ⟨t * a.x, t * a.y, t * a.z⟩

/-- Componentwise division by a scalar (C writes `a[i] / d`). -/
def vdiv (a : Vec3) (t : ℝ) : Vec3 := ⟨a.x / t, a.y / t, a.z / t⟩

/-- Componentwise negation. -/
def vneg (a : Vec3) : Vec3 := ⟨-a.x, -a.y, -a.z⟩

/-- `lensy_inner3`: the inner product `a[0]*b[0] + a[1]*b[1] + a[2]*b[2]`. -/
def lensy_inner3 (a b : Vec3) : ℝ := a.x * b.x + a.y * b.y + a.z * b.z

/-- `lensy_mag3`: `sqrt(lensy_inner3(a, a))`. -/
def lensy_mag3 (a : Vec3) : ℝ := Real.sqrt (lensy_inner3 a a)

/-- `lensy_cross3`: the cross product, with the middle component written
`-(a[0]*b[2] - b[0]*a[2])` as in the source. -/
def lensy_cross3 (a b : Vec3) : Vec3 :=
  ⟨a.y * b.z - b.y * a.z, -(a.x * b.z - b.x * a.z), a.x * b.y - b.x * a.y⟩

/-- `struct lensy_ray_struct` (the `raylist` intrusive link and the formatted
`pathkey` text are not modelled; colors are the three `char` channels). -/
structure Ray where
  p : Vec3
  d : Vec3
  wavelength : ℝ
  red : ℤ
  green : ℤ
  blue : ℤ

attribute [ext] Ray

/-- `struct lensy_plane_struct`. -/
structure lensy_plane_struct where
  v : Vec3
  n : Vec3
  aperture : ℝ

/-- `struct lensy_sphere_struct`. -/
structure lensy_sphere_struct where
  v : Vec3
  vr : Vec3
  aperture : ℝ

/-- `struct lensy_paraboloid_struct`. -/
structure lensy_paraboloid_struct where
  v : Vec3
  f : Vec3
  aperture : ℝ

/-- `struct lensy_cylinder_struct`. -/
structure lensy_cylinder_struct where
  v : Vec3
  va : Vec3
  a : Vec3
  aperture : ℝ

/-- `struct lensy_hyperboloid_struct`. -/
structure lensy_hyperboloid_struct where
  v : Vec3
  a : Vec3
  e : ℝ
  aperture : ℝ

/-- Observable outcome of one `lensy_intersect_*` call: the ray record after
the call (the routines take it by pointer), the contents of the caller's
`q[3]` and `n[3]` buffers after the call, and the `int32_t` return code
(`0` hit, `-1` outside aperture, `-2` no intersection). -/
structure IResult where
  ray : Ray
  q : Vec3
  n : Vec3
  rc : ℤ

/-- `lensy_intersect_plane`.  `q0`/`n0` are the caller's buffer contents on
entry (the code writes `q` before it can fail, and `n` only later). -/
def lensy_intersect_plane (r : Ray) (p : lensy_plane_struct) (_q0 n0 : Vec3) :
    IResult :=
  let q := r.p
  let d0 := lensy_inner3 r.d p.n
  if d0 = 0 then ⟨r, q, n0, -2⟩ else
  let d1 := (lensy_inner3 p.v p.n - lensy_inner3 r.p p.n) / d0
  if d1 < 0 then ⟨r, q, n0, -2⟩ else
  let q := vadd r.p (smul d1 r.d)
  let d3 := lensy_mag3 p.n
  if d3 = 0 then ⟨r, q, n0, -2⟩ else
  let n := vdiv p.n d3
  let w := vsub q p.v
  let d2 := lensy_mag3 w
  if d2 > p.aperture / 2 then ⟨r, q, n, -1⟩ else
  ⟨r, q, n, 0⟩

/-- The tail of `lensy_intersect_sphere` from the recomputation of
`q1 = r->p + d4*r->d` (line 292) on: vertex-side test, normal, aperture. -/
def lensy_intersect_sphere_tail (r : Ray) (s : lensy_sphere_struct)
    (n0 : Vec3) (d4 : ℝ) : IResult :=
  let w1 := vadd s.v s.vr
  let q1 := vadd r.p (smul d4 r.d)
  let w4 := vsub q1 w1
  if lensy_inner3 w4 s.vr ≥ 0 then ⟨r, r.p, n0, -2⟩ else
  let q := q1
  let npre := vsub q w1
  let d0 := lensy_mag3 npre
  let n := if d0 > 0 then vdiv npre d0 else npre
  let w2 := vsub q s.v
  let d7 := lensy_mag3 s.vr
  let w3 := vdiv s.vr d7
  let d8 := lensy_inner3 w2 w3
  let w2' := vsub w2 (smul d8 w3)
  let d9 := lensy_mag3 w2'
  if d9 > s.aperture / 2 then ⟨r, q, n, -1⟩ else
  ⟨r, q, n, 0⟩

/-- `lensy_intersect_sphere`: root selection (`a = 0` linear case, else the
root on the vertex side of the center), then the common tail. -/
def lensy_intersect_sphere (r : Ray) (s : lensy_sphere_struct) (_q0 n0 : Vec3) :
    IResult :=
  let q := r.p
  let w1 := vadd s.v s.vr
  let w0 := vsub r.p w1
  let d1 := lensy_inner3 r.d r.d
  let d2 := 2 * lensy_inner3 r.d w0
  let d3 := lensy_inner3 w0 w0 - lensy_inner3 s.vr s.vr
  if d1 = 0 then lensy_intersect_sphere_tail r s n0 (-d3 / d2) else
  let d5 := d2 * d2 - 4 * d1 * d3
  if d5 < 0 then ⟨r, q, n0, -2⟩ else
  let d4 := (-d2 + Real.sqrt d5) / (2 * d1)
  let q1 := vadd r.p (smul d4 r.d)
  let w4 := vsub q1 w1
  if lensy_inner3 w4 s.vr ≥ 0 then
    lensy_intersect_sphere_tail r s n0 ((-d2 - Real.sqrt d5) / (2 * d1))
  else
    lensy_intersect_sphere_tail r s n0 d4

/-- The tail of `lensy_intersect_paraboloid` from `q = r->p + d5*r->d`
(line 185) on: intersect point, radial offset, normal, aperture test. -/
def lensy_intersect_paraboloid_tail (r : Ray) (p : lensy_paraboloid_struct)
    (d5 : ℝ) : IResult :=
  let d0 := lensy_mag3 p.f
  let w0 := vdiv p.f d0
  let q := vadd r.p (smul d5 r.d)
  let w2 := vsub q p.v
  let d6 := lensy_inner3 w2 w0
  let w2' := vsub w2 (smul d6 w0)
  let d7 := lensy_mag3 w2'
  let n :=
    if d7 = 0 then w0
    else
      let w2n := vdiv w2' d7
      let npre := vadd (smul (-(d7 / (2 * d0))) w2n) w0
      let d8 := lensy_mag3 npre
      vdiv npre d8
  if d7 > p.aperture / 2 then ⟨r, q, n, -1⟩ else
  ⟨r, q, n, 0⟩

/-- `lensy_intersect_paraboloid`: sets up the quadratic, selects the smaller
nonnegative root (the linear `a = 0` case is unchecked), then the tail. -/
def lensy_intersect_paraboloid (r : Ray) (p : lensy_paraboloid_struct)
    (_q0 n0 : Vec3) : IResult :=
  let q := r.p
  let d0 := lensy_mag3 p.f
  let w0 := vdiv p.f d0
  let w1 := vsub (vsub r.p p.v) p.f
  let d1 := lensy_inner3 r.d r.d - (lensy_inner3 r.d w0) ^ 2
  let d4 := 2 * lensy_mag3 p.f + lensy_inner3 w1 w0
  let d2 := 2 * lensy_inner3 r.d w1 - 2 * lensy_inner3 r.d w0 * d4
  let d3 := lensy_inner3 w1 w1 - d4 * d4
  if d1 = 0 then lensy_intersect_paraboloid_tail r p (-d3 / d2) else
  let d10 := d2 * d2 - 4 * d1 * d3
  if d10 < 0 then ⟨r, q, n0, -2⟩ else
  let d5 := (-d2 + Real.sqrt d10) / (2 * d1)
  let d9 := (-d2 - Real.sqrt d10) / (2 * d1)
  let d5' := if d5 < 0 ∨ (d9 > 0 ∧ d9 < d5) then d9 else d5
  if d5' < 0 then ⟨r, q, n0, -2⟩ else
  lensy_intersect_paraboloid_tail r p d5'

/-- The tail of `lensy_intersect_cylinder` from `q1 = r->p + d5*r->d`
(line 434) on: vertex-side test, normal (with its own `-2` guard), aperture. -/
def lensy_intersect_cylinder_tail (r : Ray) (c : lensy_cylinder_struct)
    (n0 : Vec3) (d5 : ℝ) : IResult :=
  let d0 := lensy_mag3 c.va
  let w0 := vdiv c.va d0
  let d1 := lensy_inner3 c.a w0
  let apre := vsub c.a (smul d1 w0)
  let d2 := lensy_mag3 apre
  let a := vdiv apre d2
  let w1 := vadd c.v c.va
  let q1 := vadd r.p (smul d5 r.d)
  let w5 := vsub q1 w1
  if lensy_inner3 w5 c.va ≥ 0 then ⟨r, r.p, n0, -2⟩ else
  let q := q1
  let d7 := lensy_inner3 w5 a
  let npre := vsub w5 (smul d7 a)
  let d8 := lensy_mag3 npre
  if d8 = 0 then ⟨r, q, n0, -2⟩ else
  let n := vdiv npre d8
  let d9 := lensy_inner3 w5 w0
  let w6 := vsub w5 (smul d9 w0)
  let d10 := lensy_mag3 w6
  if d10 > c.aperture / 2 then ⟨r, q, n, -1⟩ else
  ⟨r, q, n, 0⟩

/-- `lensy_intersect_cylinder`: orthonormalizes the axis against `va`, sets up
the quadratic in the plane perpendicular to the axis, selects the vertex-side
root, then the common tail. -/
def lensy_intersect_cylinder (r : Ray) (c : lensy_cylinder_struct)
    (_q0 n0 : Vec3) : IResult :=
  let q := r.p
  let d0 := lensy_mag3 c.va
  if d0 = 0 then ⟨r, q, n0, -2⟩ else
  let w0 := vdiv c.va d0
  let d1 := lensy_inner3 c.a w0
  let apre := vsub c.a (smul d1 w0)
  let d2 := lensy_mag3 apre
  if d2 = 0 then ⟨r, q, n0, -2⟩ else
  let a := vdiv apre d2
  let w1 := vadd c.v c.va
  let w2 := vsub r.p w1
  let d3 := lensy_inner3 w2 a
  let d4 := lensy_inner3 r.d a
  let w3 := vsub r.d (smul d4 a)
  let w4 := vsub w2 (smul d3 a)
  let da := lensy_inner3 w3 w3
  let db := 2 * lensy_inner3 w3 w4
  let dc := lensy_inner3 w4 w4 - lensy_inner3 c.va c.va
  if da = 0 then lensy_intersect_cylinder_tail r c n0 (-dc / db) else
  let d6 := db * db - 4 * da * dc
  if d6 < 0 then ⟨r, q, n0, -2⟩ else
  let d5 := (-db + Real.sqrt d6) / (2 * da)
  let q1 := vadd r.p (smul d5 r.d)
  let w5 := vsub q1 w1
  if lensy_inner3 w5 c.va ≥ 0 then
    lensy_intersect_cylinder_tail r c n0 ((-db - Real.sqrt d6) / (2 * da))
  else
    lensy_intersect_cylinder_tail r c n0 d5

/-- The tail of `lensy_intersect_hyperboloid` from `q1 = r->p + d4*r->d`
(line 612) on: vertex-side test, normal (with the `d7 > 0` guard), aperture. -/
def lensy_intersect_hyperboloid_tail (r : Ray) (h : lensy_hyperboloid_struct)
    (n0 : Vec3) (d4 : ℝ) : IResult :=
  let w1 := vadd h.v h.a
  let d8 := lensy_mag3 h.a
  let w2 := vdiv (vneg h.a) d8
  let q1 := vadd r.p (smul d4 r.d)
  let w4 := vsub q1 w1
  if lensy_inner3 w4 h.a ≥ 0 then ⟨r, r.p, n0, -2⟩ else
  let q := q1
  let w0 := vsub q h.v
  let d0 := lensy_inner3 w0 w2
  let w0' := vsub w0 (smul d0 w2)
  let d9 := lensy_mag3 w0'
  let npre :=
    if d0 = 0 then w2
    else
      let w0n := vdiv w0' d9
      let d0' := Real.sqrt (d8 * d8 * (h.e * h.e - 1))
      let d1' := d8 / d0' * (d9 / Real.sqrt (d0' * d0' + d9 * d9))
      vsub w2 (smul d1' w0n)
  let d7 := lensy_mag3 npre
  if d7 > 0 then
    let n := vdiv npre d7
    if d9 > h.aperture / 2 then ⟨r, q, n, -1⟩ else ⟨r, q, n, 0⟩
  else ⟨r, q, npre, -2⟩

/-- `lensy_intersect_hyperboloid`: focus-directrix quadratic, vertex-side
root selection against `a`, then the common tail. -/
def lensy_intersect_hyperboloid (r : Ray) (h : lensy_hyperboloid_struct)
    (_q0 n0 : Vec3) : IResult :=
  let q := r.p
  let w1 := vadd h.v h.a
  let f := vadd w1 (smul h.e (vneg h.a))
  let d8 := lensy_mag3 h.a
  let w2 := vdiv (vneg h.a) d8
  let w3 := vadd (vsub r.p w1) (vdiv h.a h.e)
  let w4 := vsub r.p f
  let d0 := h.e * h.e
  let d4 := lensy_inner3 w2 r.d
  let d5 := lensy_inner3 w2 w3
  let d1 := lensy_inner3 r.d r.d - d0 * d4 * d4
  let d2 := 2 * (lensy_inner3 r.d w4 - d0 * d4 * d5)
  let d3 := lensy_inner3 w4 w4 - d0 * d5 * d5
  if d1 = 0 then lensy_intersect_hyperboloid_tail r h n0 (-d3 / d2) else
  let dd := d2 * d2 - 4 * d1 * d3
  if dd < 0 then ⟨r, q, n0, -2⟩ else
  let t1 := (-d2 + Real.sqrt dd) / (2 * d1)
  let q1 := vadd r.p (smul t1 r.d)
  let w4' := vsub q1 w1
  if lensy_inner3 w4' h.a ≥ 0 then
    lensy_intersect_hyperboloid_tail r h n0 ((-d2 - Real.sqrt dd) / (2 * d1))
  else
    lensy_intersect_hyperboloid_tail r h n0 t1

/-- `lensy_redirect_reflect`: `p <- q`, `d <- d - 2*(d.n)*n`. -/
def lensy_redirect_reflect (r : Ray) (q n : Vec3) : Ray :=
  let d0 := lensy_inner3 r.d n
  { r with p := q, d := vadd r.d (smul (-2 * d0) n) }

/-- `lensy_redirect_refract`; the second component is the `int32_t` return
code (`0` OK, `-1` total internal reflection, `-2` zero direction). -/
def lensy_redirect_refract (r : Ray) (q n : Vec3) (m : ℝ) : Ray × ℤ :=
  let r1 := { r with p := q }
  let d0 := lensy_mag3 r.d
  if d0 = 0 then (r1, -2) else
  let u := vdiv (vneg r.d) d0
  let n1 := if lensy_inner3 u n < 0 then vneg n else n
  let w := lensy_cross3 u n1
  let d1 := lensy_mag3 w
  let d2 := m * d1
  if |d2| ≥ 1 then (r1, -1) else
  let d3 := Real.arcsin d2
  if d1 > 0 then
    let w1 := vdiv w d1
    let v := lensy_cross3 w1 n1
    ({ r1 with
        d := smul d0 (vadd (smul (Real.cos d3) (vneg n1))
                           (smul (Real.sin d3) v)) }, 0)
  else
    ({ r1 with d := smul d0 (vneg n1) }, 0)

/-- C's `atan2(y, x)`: the angle of the point `(x, y)`, in `(-pi, pi]`. -/
def atan2 (y x : ℝ) : ℝ :=
  if 0 < x then Real.arctan (y / x)
  else if x < 0 then
    if 0 ≤ y then Real.arctan (y / x) + Real.pi
    else Real.arctan (y / x) - Real.pi
  else
    if 0 < y then Real.pi / 2
    else if y < 0 then -(Real.pi / 2)
    else 0

/-- `lensy_redirect_diffract`; the second component is the `int32_t` return
code (`0` OK, `-2` for every degenerate configuration). -/
def lensy_redirect_diffract (r : Ray) (q n a : Vec3) (wli wlt : ℝ)
    (m : ℤ) : Ray × ℤ :=
  let r1 := { r with p := q }
  let d3 := lensy_mag3 n
  if d3 = 0 then (r1, -2) else
  let n1 := vdiv n d3
  let d0 := lensy_mag3 r.d
  if d0 = 0 then (r1, -2) else
  let w0 := vdiv r.d d0
  let d1 := lensy_mag3 a
  let d2 := lensy_inner3 a n1
  let a1pre := vsub a (smul d2 n1)
  let d2' := lensy_mag3 a1pre
  if d2' = 0 then (r1, -2) else
  let a1 := vdiv a1pre d2'
  let t1 := lensy_cross3 a1 n1
  let d4 := lensy_inner3 w0 n1
  let d5 := lensy_inner3 w0 a1
  let d6 := lensy_inner3 w0 t1
  if d4 = 0 then (r1, -2) else
  if d6 = 1 then (r1, -2) else
  let d10 := 1 / Real.sqrt (1 - d6 * d6)
  let wli1 := wli * d10
  let wlt1 := wlt * d10
  let d7 := atan2 d5 (-d4)
  let d8 := (Real.sin d7 / wli1 + (m : ℝ) / d1) * wlt1
  if |d8| ≥ 1 then (r1, -2) else
  let d9 := Real.arcsin d8
  let w1 := vadd (vadd (smul d6 t1) (smul (Real.cos d9 / d10) n1))
                 (smul (Real.sin d9 / d10) a1)
  ({ r1 with d := smul d0 w1 }, 0)

/-- `lensy_redirect_impact`: `p <- q`, direction unchanged. -/
def lensy_redirect_impact (r : Ray) (q _n : Vec3) : Ray :=
  { r with p := q }

/-- The header's `#define PI 3.14159265` (not the exact pi). -/
def PI : ℝ := 3.14159265

/-- The header's `#define DEG2RAD 0.01745329252`. -/
def DEG2RAD : ℝ := 0.01745329252

/-- Number of shells in `lensy_cone`:
`n = floor((DEG2RAD * cone_dia / 2) / d0)` with `d0 = DEG2RAD * cone_step`. -/
def cone_nshells (cone_dia cone_step : ℝ) : ℤ :=
  ⌊DEG2RAD * cone_dia / 2 / (DEG2RAD * cone_step)⌋

/-- Rays in shell `j` of `lensy_cone`: `m = floor(sin(d1) * 2 * PI / d0)`
with `d1 = j * d0`; the inner loop `for (k = 0; k < m; k++)` runs
`max m 0` times. -/
def cone_mrays (d0 : ℝ) (j : ℤ) : ℤ :=
  ⌊Real.sin ((j : ℝ) * d0) * 2 * PI / d0⌋

/-- One shell ray of `lensy_cone` (loop body, lines 992-1052): the emitted
direction `w3` built in the frame derived from `atan2(d[1], d[0])` and
`asin(d[2])`, sharing `p`, wavelength and color with the apex ray. -/
def lensy_cone_ray (pr : Ray) (d10 d0 : ℝ) (j m k : ℤ) : Ray :=
  let d1 := (j : ℝ) * d0
  let d2 := (k : ℝ) * (2 * PI / (m : ℝ))
  let d3 := PI / 2 - d1
  let w0 : Vec3 := ⟨0, 0, 1⟩
  let w1 : Vec3 := ⟨Real.cos d3 * Real.cos d2, Real.cos d3 * Real.sin d2,
                    Real.sin d3⟩
  let w2 := vsub w1 w0
  let d4 := atan2 pr.d.y pr.d.x
  let d5 := Real.arcsin pr.d.z
  let u0 : Vec3 := ⟨Real.cos (PI / 2 - d4),
                    Real.cos d4 * Real.cos (PI / 2 - d5),
                    Real.cos d4 * Real.sin (PI / 2 - d5)⟩
  let u1 : Vec3 := ⟨Real.sin (-(PI / 2 - d4)),
                    Real.cos (-(PI / 2 - d4)) * Real.cos (PI / 2 - d5),
                    Real.cos (-(PI / 2 - d4)) * Real.sin (PI / 2 - d5)⟩
  let u2 : Vec3 := ⟨0, Real.sin (-(PI / 2 - d5)), Real.cos (-(PI / 2 - d5))⟩
  let w3 : Vec3 := ⟨pr.d.x + d10 * lensy_inner3 w2 u0,
                    pr.d.y + d10 * lensy_inner3 w2 u1,
                    pr.d.z + d10 * lensy_inner3 w2 u2⟩
  { p := pr.p, d := w3, wavelength := pr.wavelength,
    red := pr.red, green := pr.green, blue := pr.blue }

/-- `lensy_cone`, modelled as the list of emitted rays in generation order,
assuming every `malloc` succeeds.  The center ray is emitted first; the C
code copies `p`, `d` and `wavelength` into it but leaves its color channels
uninitialized, which is modelled by the `junk` parameter. -/
def lensy_cone (pr : Ray) (cone_dia cone_step : ℝ) (junk : ℤ × ℤ × ℤ) :
    List Ray :=
  let d10 := lensy_mag3 pr.d
  if d10 = 0 then [] else
  let center : Ray := { p := pr.p, d := pr.d, wavelength := pr.wavelength,
                        red := junk.1, green := junk.2.1, blue := junk.2.2 }
  let d0 := DEG2RAD * cone_step
  let n := cone_nshells cone_dia cone_step
  center ::
    (List.range n.toNat).flatMap (fun (j' : ℕ) =>
      let j : ℤ := (j' : ℤ) + 1
      let m := cone_mrays d0 ((j' : ℤ) + 1)
      (List.range m.toNat).map (fun (k : ℕ) => lensy_cone_ray pr d10 d0 j m (k : ℤ)))

/-- The basis vector `u0` built by `lensy_beam` (lines 1091-1093):
`u0 = (w0y / sqrt(w0x^2 + w0y^2), sqrt(1 - u0x^2), 0)` with `w0 = d/|d|`. -/
def beam_u0 (pr : Ray) : Vec3 :=
  let d10 := lensy_mag3 pr.d
  let w0 := vdiv pr.d d10
  let u0x := w0.y / Real.sqrt (w0.x * w0.x + w0.y * w0.y)
  ⟨u0x, Real.sqrt (1 - u0x * u0x), 0⟩

/-- The second basis vector of `lensy_beam`: `u1 = w0 x u0`. -/
def beam_u1 (pr : Ray) : Vec3 :=
  lensy_cross3 (vdiv pr.d (lensy_mag3 pr.d)) (beam_u0 pr)

/-- Number of executions of each `lensy_beam` loop
`for (d0 = -beam_dia/2; d0 < +beam_dia/2; d0 += beam_step)`: in exact
arithmetic iteration `k` (with offset `-beam_dia/2 + k*beam_step`) runs
iff `k*beam_step < beam_dia`; for `beam_step > 0` that is
`k < ceil(beam_dia / beam_step)`. -/
def beam_steps (beam_dia beam_step : ℝ) : ℕ :=
  (⌈beam_dia / beam_step⌉).toNat

/-- The ray emitted by `lensy_beam` at loop indices `(i, j)`, positioned at
`p + d0*u0 + d1*u1` with `d0 = -dia/2 + i*step`, `d1 = -dia/2 + j*step`,
sharing direction, wavelength and color with the axis ray. -/
def beam_ray (pr : Ray) (beam_dia beam_step : ℝ) (i j : ℕ) : Ray :=
  let d0 := -beam_dia / 2 + (i : ℝ) * beam_step
  let d1 := -beam_dia / 2 + (j : ℝ) * beam_step
  { p := vadd (vadd pr.p (smul d0 (beam_u0 pr))) (smul d1 (beam_u1 pr)),
    d := pr.d, wavelength := pr.wavelength,
    red := pr.red, green := pr.green, blue := pr.blue }

/-- `lensy_beam`, modelled as the list of emitted rays in generation order,
assuming every `malloc` succeeds.  A lattice point is skipped when
`sqrt(d0^2 + d1^2) > beam_dia/2`. -/
def lensy_beam (pr : Ray) (beam_dia beam_step : ℝ) : List Ray :=
  let d10 := lensy_mag3 pr.d
  if d10 = 0 then [] else
  (List.range (beam_steps beam_dia beam_step)).flatMap (fun (i : ℕ) =>
    (List.range (beam_steps beam_dia beam_step)).filterMap (fun (j : ℕ) =>
      let d0 := -beam_dia / 2 + (i : ℝ) * beam_step
      let d1 := -beam_dia / 2 + (j : ℝ) * beam_step
      let d2 := Real.sqrt (d0 * d0 + d1 * d1)
      if d2 > beam_dia / 2 then none
      else some (beam_ray pr beam_dia beam_step i j)))

/-- Input fields of `struct lensy_ccd_struct` (the members a caller sets
before `lensy_init_ccd`). -/
structure lensy_ccd_struct where
  v : Vec3
  vx : Vec3
  vy : Vec3
  x_nmax : ℤ
  y_nmax : ℤ

/-- Fields of `struct lensy_ccd_struct` written by `lensy_init_ccd`: the
derived plane, the image buffer contents (indexed samples) and its byte
size. -/
structure CcdInit where
  p : lensy_plane_struct
  b : ℕ → ℕ
  b_size : ℤ

/-- `lensy_init_ccd`.  `heap` gives the (indeterminate) contents of the
memory block `malloc` returns: sample `i` of the new buffer reads
`heap i` — the code never writes the buffer.  `none` models the
`exit(-1)` on `vx x vy = 0` (the buffer `malloc` is assumed to succeed).
`sizeof(uint16_t) = 2`. -/
def lensy_init_ccd (ccd : lensy_ccd_struct) (heap : ℕ → ℕ) : Option CcdInit :=
  let w0 := lensy_cross3 ccd.vx ccd.vy
  let d0 := lensy_mag3 w0
  if d0 = 0 then none else
  some { p := { v := ccd.v, n := vdiv w0 d0,
                aperture := 2 * ((ccd.x_nmax : ℝ) * lensy_mag3 ccd.vx +
                                 (ccd.y_nmax : ℝ) * lensy_mag3 ccd.vy) },
         b := heap,
         b_size := 2 * ccd.x_nmax * ccd.y_nmax }

/-- Sine of incidence as the refract claim words it: `u = -d/|d|`, `n`
reoriented so that `<u, n> >= 0`, then `sigma = |u x n|` (exactly the `d1`
computed by `lensy_redirect_refract`). -/
def refract_sigma (r : Ray) (n : Vec3) : ℝ :=
  let u := vdiv (vneg r.d) (lensy_mag3 r.d)
  let n1 := if lensy_inner3 u n < 0 then vneg n else n
  lensy_mag3 (lensy_cross3 u n1)

/-- The grating's normalized surface normal `n1 = n/|n|`. -/
def grat_n1 (n : Vec3) : Vec3 := vdiv n (lensy_mag3 n)

/-- The normalized incident direction `w0 = d/|d|`. -/
def grat_w0 (r : Ray) : Vec3 := vdiv r.d (lensy_mag3 r.d)

/-- The grating vector projected into the surface plane,
`a1 = a - <a, n1>*n1` before normalization. -/
def grat_aperp (n a : Vec3) : Vec3 :=
  vsub a (smul (lensy_inner3 a (grat_n1 n)) (grat_n1 n))

/-- The normalized projected grating vector. -/
def grat_ahat (n a : Vec3) : Vec3 :=
  vdiv (grat_aperp n a) (lensy_mag3 (grat_aperp n a))

/-- The ruling-parallel tangent `t1 = a1 x n1`. -/
def grat_that (n a : Vec3) : Vec3 := lensy_cross3 (grat_ahat n a) (grat_n1 n)

/-- The preserved ruling-parallel component `gamma = <w0, t1>` (`d6`). -/
def grat_gamma (r : Ray) (n a : Vec3) : ℝ :=
  lensy_inner3 (grat_w0 r) (grat_that n a)

/-- The obliquity factor `k = 1/sqrt(1 - gamma^2)` (`d10`). -/
def grat_k (r : Ray) (n a : Vec3) : ℝ :=
  1 / Real.sqrt (1 - grat_gamma r n a * grat_gamma r n a)

/-- The in-plane incidence angle `phi_i = atan2(<w0, a1>, -<w0, n1>)`
(`d7`). -/
def grat_phii (r : Ray) (n a : Vec3) : ℝ :=
  atan2 (lensy_inner3 (grat_w0 r) (grat_ahat n a))
        (-(lensy_inner3 (grat_w0 r) (grat_n1 n)))

/-- The outgoing in-plane sine the code computes (`d8`): the grating-equation
term `m / Lambda` uses `Lambda = |a|`, the magnitude of the full grating
vector. -/
def code_inplane_sine (r : Ray) (n a : Vec3) (wli wlt : ℝ) (m : ℤ) : ℝ :=
  (Real.sin (grat_phii r n a) / (wli * grat_k r n a)
    + (m : ℝ) / lensy_mag3 a) * (wlt * grat_k r n a)

/-- Modelled from the spec: the outgoing in-plane sine
`s = (sin phi_i / lambda_i' + m / Lambda) * lambda_o'` as section 4.2 words
it, with the effective spacing `Lambda = |a_perp|` of the projected grating
vector.  (The code instead divides `m` by `|a|`; this definition is the
comparator for claim C2.) -/
def spec_inplane_sine (r : Ray) (n a : Vec3) (wli wlt : ℝ) (m : ℤ) : ℝ :=
  (Real.sin (grat_phii r n a) / (wli * grat_k r n a)
    + (m : ℝ) / lensy_mag3 (grat_aperp n a)) * (wlt * grat_k r n a)

theorem inner3_self_nonneg (a : Vec3) : 0 ≤ lensy_inner3 a a := by
  unfold lensy_inner3
  nlinarith [mul_self_nonneg a.x, mul_self_nonneg a.y, mul_self_nonneg a.z]

theorem mag3_nonneg (a : Vec3) : 0 ≤ lensy_mag3 a := Real.sqrt_nonneg _

theorem mag3_mul_self (a : Vec3) :
    lensy_mag3 a * lensy_mag3 a = lensy_inner3 a a :=
  Real.mul_self_sqrt (inner3_self_nonneg a)

theorem inner3_self_eq_zero {a : Vec3} :
    lensy_inner3 a a = 0 ↔ a = ⟨0, 0, 0⟩ := by
  constructor
  · intro h
    unfold lensy_inner3 at h
    have hx : a.x = 0 := by
      nlinarith [mul_self_nonneg a.x, mul_self_nonneg a.y, mul_self_nonneg a.z]
    have hy : a.y = 0 := by
      nlinarith [mul_self_nonneg a.x, mul_self_nonneg a.y, mul_self_nonneg a.z]
    have hz : a.z = 0 := by
      nlinarith [mul_self_nonneg a.x, mul_self_nonneg a.y, mul_self_nonneg a.z]
    cases a
    simp_all
  · intro h
    subst h
    simp [lensy_inner3]

theorem mag3_eq_zero {a : Vec3} : lensy_mag3 a = 0 ↔ a = ⟨0, 0, 0⟩ := by
  unfold lensy_mag3
  rw [Real.sqrt_eq_zero (inner3_self_nonneg a)]
  exact inner3_self_eq_zero

theorem mag3_pos {a : Vec3} (h : a ≠ ⟨0, 0, 0⟩) : 0 < lensy_mag3 a :=
  lt_of_le_of_ne (mag3_nonneg a) (fun h0 => h (mag3_eq_zero.mp h0.symm))

theorem inner3_vdiv_mag_self {a : Vec3} (h : a ≠ ⟨0, 0, 0⟩) :
    lensy_inner3 (vdiv a (lensy_mag3 a)) (vdiv a (lensy_mag3 a)) = 1 := by
  have h1 : lensy_mag3 a ≠ 0 := ne_of_gt (mag3_pos h)
  have h2 := mag3_mul_self a
  unfold lensy_inner3 vdiv at *
  field_simp
  linarith

theorem mag3_eq_one_of_inner {a : Vec3} (h : lensy_inner3 a a = 1) :
    lensy_mag3 a = 1 := by
  unfold lensy_mag3
  rw [h, Real.sqrt_one]

theorem inner3_zero_left (v : Vec3) : lensy_inner3 ⟨0, 0, 0⟩ v = 0 := by
  simp [lensy_inner3]

theorem lensy_intersect_sphere_tail_hit {r : Ray} {s : lensy_sphere_struct}
    {n0 : Vec3} {d4 : ℝ} (h : (lensy_intersect_sphere_tail r s n0 d4).rc = 0) :
    (lensy_intersect_sphere_tail r s n0 d4).q = vadd r.p (smul d4 r.d) ∧
    lensy_inner3 (lensy_intersect_sphere_tail r s n0 d4).n
      (lensy_intersect_sphere_tail r s n0 d4).n = 1 := by
  unfold lensy_intersect_sphere_tail at h ⊢
  set w1 := vadd s.v s.vr with hw1
  set q1 := vadd r.p (smul d4 r.d) with hq1
  set npre := vsub q1 w1 with hnpre
  by_cases hvtx : lensy_inner3 npre s.vr ≥ 0
  · simp only [hvtx, if_pos] at h
    exact absurd h (by norm_num)
  · have hne : npre ≠ ⟨0, 0, 0⟩ := by
      intro h0
      rw [h0] at hvtx
      exact hvtx (le_of_eq (inner3_zero_left s.vr).symm)
    have hpos : 0 < lensy_mag3 npre := mag3_pos hne
    simp only [hvtx, if_neg, if_pos hpos, not_false_iff] at h ⊢
    refine ⟨?_, ?_⟩
    · split_ifs <;> rfl
    · have hunit := inner3_vdiv_mag_self hne
      split_ifs <;> exact hunit

theorem lensy_intersect_plane_hit {r : Ray} {p : lensy_plane_struct}
    {q0 n0 : Vec3} (h : (lensy_intersect_plane r p q0 n0).rc = 0) :
    ∃ t : ℝ, 0 ≤ t ∧
      (lensy_intersect_plane r p q0 n0).q = vadd r.p (smul t r.d) ∧
      lensy_inner3 (lensy_intersect_plane r p q0 n0).n
        (lensy_intersect_plane r p q0 n0).n = 1 := by
  unfold lensy_intersect_plane at h ⊢
  dsimp only at h ⊢
  split_ifs at h ⊢ with h1 h2 h3 h4
  · exact absurd h (by norm_num)
  · exact absurd h (by norm_num)
  · exact absurd h (by norm_num)
  · exact absurd h (by norm_num)
  · refine ⟨_, not_lt.mp h2, rfl, inner3_vdiv_mag_self ?_⟩
    intro h0
    exact h3 (mag3_eq_zero.mpr h0)

theorem inner3_comm (a b : Vec3) : lensy_inner3 a b = lensy_inner3 b a := by
  unfold lensy_inner3
  ring

theorem inner3_expand_smul_add (c : ℝ) (a b : Vec3) :
    lensy_inner3 (vadd (smul c a) b) (vadd (smul c a) b) =
      c * c * lensy_inner3 a a + 2 * c * lensy_inner3 a b +
        lensy_inner3 b b := by
  unfold lensy_inner3 vadd smul
  ring

theorem inner3_vdiv_left (a : Vec3) (t : ℝ) (b : Vec3) :
    lensy_inner3 (vdiv a t) b = lensy_inner3 a b / t := by
  unfold lensy_inner3 vdiv
  ring

theorem inner3_proj_orth (w2 w0 : Vec3) (h : lensy_inner3 w0 w0 = 1) :
    lensy_inner3 (vsub w2 (smul (lensy_inner3 w2 w0) w0)) w0 = 0 := by
  simp only [lensy_inner3, vsub, smul] at h ⊢
  linear_combination (-(w2.x * w0.x) - w2.y * w0.y - w2.z * w0.z) * h

theorem lensy_intersect_paraboloid_tail_hit {r : Ray}
    {p : lensy_paraboloid_struct} {d5 : ℝ} (hf : p.f ≠ ⟨0, 0, 0⟩)
    (h : (lensy_intersect_paraboloid_tail r p d5).rc = 0) :
    (lensy_intersect_paraboloid_tail r p d5).q = vadd r.p (smul d5 r.d) ∧
    lensy_inner3 (lensy_intersect_paraboloid_tail r p d5).n
      (lensy_intersect_paraboloid_tail r p d5).n = 1 := by
  have hw0 : lensy_inner3 (vdiv p.f (lensy_mag3 p.f))
      (vdiv p.f (lensy_mag3 p.f)) = 1 := inner3_vdiv_mag_self hf
  unfold lensy_intersect_paraboloid_tail at h ⊢
  dsimp only at h ⊢
  split_ifs at h ⊢ with h1 h2 h3
  · exact absurd h (by norm_num)
  · exact absurd h (by norm_num)
  · exact ⟨rfl, hw0⟩
  · refine ⟨rfl, ?_⟩
    set d0 := lensy_mag3 p.f with hd0
    set w0 := vdiv p.f d0 with hw0def
    set q := vadd r.p (smul d5 r.d) with hq
    set w2 := vsub q p.v with hw2
    set w2' := vsub w2 (smul (lensy_inner3 w2 w0) w0) with hw2'
    set d7 := lensy_mag3 w2' with hd7def
    have hw2ne : w2' ≠ ⟨0, 0, 0⟩ := fun h0 => h3 (mag3_eq_zero.mpr h0)
    have hw2n : lensy_inner3 (vdiv w2' d7) (vdiv w2' d7) = 1 :=
      inner3_vdiv_mag_self hw2ne
    have horth : lensy_inner3 (vdiv w2' d7) w0 = 0 := by
      rw [inner3_vdiv_left, inner3_proj_orth w2 w0 hw0, zero_div]
    have hnpre : lensy_inner3
        (vadd (smul (-(d7 / (2 * d0))) (vdiv w2' d7)) w0)
        (vadd (smul (-(d7 / (2 * d0))) (vdiv w2' d7)) w0) =
        -(d7 / (2 * d0)) * -(d7 / (2 * d0)) + 1 := by
      rw [inner3_expand_smul_add, hw2n, horth, hw0]
      ring
    have hne : vadd (smul (-(d7 / (2 * d0))) (vdiv w2' d7)) w0 ≠
        ⟨0, 0, 0⟩ := by
      intro h0
      rw [h0, inner3_zero_left] at hnpre
      nlinarith [mul_self_nonneg (-(d7 / (2 * d0)))]
    exact inner3_vdiv_mag_self hne

theorem lensy_intersect_cylinder_tail_hit {r : Ray}
    {c : lensy_cylinder_struct} {n0 : Vec3} {d5 : ℝ}
    (h : (lensy_intersect_cylinder_tail r c n0 d5).rc = 0) :
    (lensy_intersect_cylinder_tail r c n0 d5).q = vadd r.p (smul d5 r.d) ∧
    lensy_inner3 (lensy_intersect_cylinder_tail r c n0 d5).n
      (lensy_intersect_cylinder_tail r c n0 d5).n = 1 := by
  unfold lensy_intersect_cylinder_tail at h ⊢
  dsimp only at h ⊢
  split_ifs at h ⊢ with h1 h2 h3
  · exact absurd h (by norm_num)
  · exact absurd h (by norm_num)
  · exact absurd h (by norm_num)
  · exact ⟨rfl, inner3_vdiv_mag_self (fun h0 => h2 (mag3_eq_zero.mpr h0))⟩

theorem ne_zero_of_mag3_pos {v : Vec3} (h : 0 < lensy_mag3 v) :
    v ≠ ⟨0, 0, 0⟩ :=
  fun h0 => absurd (mag3_eq_zero.mpr h0) (ne_of_gt h)

theorem lensy_intersect_hyperboloid_tail_hit {r : Ray}
    {hs : lensy_hyperboloid_struct} {n0 : Vec3} {d4 : ℝ}
    (h : (lensy_intersect_hyperboloid_tail r hs n0 d4).rc = 0) :
    (lensy_intersect_hyperboloid_tail r hs n0 d4).q =
      vadd r.p (smul d4 r.d) ∧
    lensy_inner3 (lensy_intersect_hyperboloid_tail r hs n0 d4).n
      (lensy_intersect_hyperboloid_tail r hs n0 d4).n = 1 := by
  unfold lensy_intersect_hyperboloid_tail at h ⊢
  dsimp only at h ⊢
  split_ifs at h ⊢
  · norm_num at h
  · norm_num at h
  · rename_i hpos _
    exact ⟨rfl, inner3_vdiv_mag_self (ne_zero_of_mag3_pos hpos)⟩
  · norm_num at h
  · norm_num at h
  · rename_i hpos _
    exact ⟨rfl, inner3_vdiv_mag_self (ne_zero_of_mag3_pos hpos)⟩
  · norm_num at h

theorem lensy_intersect_sphere_cases (r : Ray) (s : lensy_sphere_struct)
    (q0 n0 : Vec3) :
    (∃ t, lensy_intersect_sphere r s q0 n0 =
      lensy_intersect_sphere_tail r s n0 t) ∨
    (lensy_intersect_sphere r s q0 n0).rc = -2 := by
  unfold lensy_intersect_sphere
  dsimp only
  split_ifs
  · exact Or.inl ⟨_, rfl⟩
  · exact Or.inr rfl
  · exact Or.inl ⟨_, rfl⟩
  · exact Or.inl ⟨_, rfl⟩

theorem lensy_intersect_paraboloid_cases (r : Ray)
    (p : lensy_paraboloid_struct) (q0 n0 : Vec3) :
    (∃ t, lensy_intersect_paraboloid r p q0 n0 =
      lensy_intersect_paraboloid_tail r p t) ∨
    (lensy_intersect_paraboloid r p q0 n0).rc = -2 := by
  unfold lensy_intersect_paraboloid
  dsimp only
  split_ifs
  · exact Or.inl ⟨_, rfl⟩
  · exact Or.inr rfl
  · exact Or.inr rfl
  · exact Or.inl ⟨_, rfl⟩
  · exact Or.inr rfl
  · exact Or.inl ⟨_, rfl⟩

theorem lensy_intersect_cylinder_cases (r : Ray) (c : lensy_cylinder_struct)
    (q0 n0 : Vec3) :
    (∃ t, lensy_intersect_cylinder r c q0 n0 =
      lensy_intersect_cylinder_tail r c n0 t) ∨
    (lensy_intersect_cylinder r c q0 n0).rc = -2 := by
  unfold lensy_intersect_cylinder
  dsimp only
  split_ifs
  · exact Or.inr rfl
  · exact Or.inr rfl
  · exact Or.inl ⟨_, rfl⟩
  · exact Or.inr rfl
  · exact Or.inl ⟨_, rfl⟩
  · exact Or.inl ⟨_, rfl⟩

theorem lensy_intersect_hyperboloid_cases (r : Ray)
    (hs : lensy_hyperboloid_struct) (q0 n0 : Vec3) :
    (∃ t, lensy_intersect_hyperboloid r hs q0 n0 =
      lensy_intersect_hyperboloid_tail r hs n0 t) ∨
    (lensy_intersect_hyperboloid r hs q0 n0).rc = -2 := by
  unfold lensy_intersect_hyperboloid
  dsimp only
  split_ifs
  · exact Or.inl ⟨_, rfl⟩
  · exact Or.inr rfl
  · exact Or.inl ⟨_, rfl⟩
  · exact Or.inl ⟨_, rfl⟩

theorem lensy_intersect_plane_ray (r : Ray) (p : lensy_plane_struct)
    (q0 n0 : Vec3) : (lensy_intersect_plane r p q0 n0).ray = r := by
  unfold lensy_intersect_plane
  dsimp only
  split_ifs <;> rfl

theorem lensy_intersect_sphere_tail_ray (r : Ray) (s : lensy_sphere_struct)
    (n0 : Vec3) (d4 : ℝ) : (lensy_intersect_sphere_tail r s n0 d4).ray = r := by
  unfold lensy_intersect_sphere_tail
  dsimp only
  split_ifs <;> rfl

theorem lensy_intersect_sphere_ray (r : Ray) (s : lensy_sphere_struct)
    (q0 n0 : Vec3) : (lensy_intersect_sphere r s q0 n0).ray = r := by
  unfold lensy_intersect_sphere
  dsimp only
  split_ifs <;> first
    | rfl
    | apply lensy_intersect_sphere_tail_ray

theorem lensy_intersect_paraboloid_tail_ray (r : Ray)
    (p : lensy_paraboloid_struct) (d5 : ℝ) :
    (lensy_intersect_paraboloid_tail r p d5).ray = r := by
  unfold lensy_intersect_paraboloid_tail
  dsimp only
  split_ifs <;> rfl

theorem lensy_intersect_paraboloid_ray (r : Ray) (p : lensy_paraboloid_struct)
    (q0 n0 : Vec3) : (lensy_intersect_paraboloid r p q0 n0).ray = r := by
  unfold lensy_intersect_paraboloid
  dsimp only
  split_ifs <;> first
    | rfl
    | apply lensy_intersect_paraboloid_tail_ray

theorem lensy_intersect_cylinder_tail_ray (r : Ray)
    (c : lensy_cylinder_struct) (n0 : Vec3) (d5 : ℝ) :
    (lensy_intersect_cylinder_tail r c n0 d5).ray = r := by
  unfold lensy_intersect_cylinder_tail
  dsimp only
  split_ifs <;> rfl

theorem lensy_intersect_cylinder_ray (r : Ray) (c : lensy_cylinder_struct)
    (q0 n0 : Vec3) : (lensy_intersect_cylinder r c q0 n0).ray = r := by
  unfold lensy_intersect_cylinder
  dsimp only
  split_ifs <;> first
    | rfl
    | apply lensy_intersect_cylinder_tail_ray

theorem lensy_intersect_hyperboloid_tail_ray (r : Ray)
    (hs : lensy_hyperboloid_struct) (n0 : Vec3) (d4 : ℝ) :
    (lensy_intersect_hyperboloid_tail r hs n0 d4).ray = r := by
  unfold lensy_intersect_hyperboloid_tail
  dsimp only
  split_ifs <;> rfl

theorem lensy_intersect_hyperboloid_ray (r : Ray)
    (hs : lensy_hyperboloid_struct) (q0 n0 : Vec3) :
    (lensy_intersect_hyperboloid r hs q0 n0).ray = r := by
  unfold lensy_intersect_hyperboloid
  dsimp only
  split_ifs <;> first
    | rfl
    | apply lensy_intersect_hyperboloid_tail_ray

theorem sqrt_four : Real.sqrt 4 = 2 := by
  rw [show (4 : ℝ) = 2 ^ 2 by norm_num, Real.sqrt_sq (by norm_num : (0:ℝ) ≤ 2)]

/-- C9: when any of the five intersection routines is called, the ray's own
fields `p` and `d` are unchanged (the whole ray record is returned exactly
as passed in; the routines write only the `q` and `n` output buffers). -/
theorem claim_C9_intersect_preserves_ray :
    (∀ (r : Ray) (p : lensy_plane_struct) (q0 n0 : Vec3),
      (lensy_intersect_plane r p q0 n0).ray = r) ∧
    (∀ (r : Ray) (s : lensy_sphere_struct) (q0 n0 : Vec3),
      (lensy_intersect_sphere r s q0 n0).ray = r) ∧
    (∀ (r : Ray) (p : lensy_paraboloid_struct) (q0 n0 : Vec3),
      (lensy_intersect_paraboloid r p q0 n0).ray = r) ∧
    (∀ (r : Ray) (c : lensy_cylinder_struct) (q0 n0 : Vec3),
      (lensy_intersect_cylinder r c q0 n0).ray = r) ∧
    (∀ (r : Ray) (hs : lensy_hyperboloid_struct) (q0 n0 : Vec3),
      (lensy_intersect_hyperboloid r hs q0 n0).ray = r) :=
  ⟨lensy_intersect_plane_ray, lensy_intersect_sphere_ray,
   lensy_intersect_paraboloid_ray, lensy_intersect_cylinder_ray,
   lensy_intersect_hyperboloid_ray⟩

/-- C3: for every `Hit{q, n}` (return code 0) of any of the five
intersection routines, the returned normal `n` is a unit vector (in the
exact real model, `|n| = 1`), under the surface invariants: plane normal
non-zero, `vr` non-zero, `f` non-zero, cylinder `va` non-zero with `a` not
parallel to `va`, hyperboloid `a` non-zero and `e > 1`. -/
theorem claim_C3_normals_unit :
    (∀ (r : Ray) (p : lensy_plane_struct) (q0 n0 : Vec3),
      p.n ≠ ⟨0, 0, 0⟩ → (lensy_intersect_plane r p q0 n0).rc = 0 →
      lensy_mag3 (lensy_intersect_plane r p q0 n0).n = 1) ∧
    (∀ (r : Ray) (s : lensy_sphere_struct) (q0 n0 : Vec3),
      s.vr ≠ ⟨0, 0, 0⟩ → (lensy_intersect_sphere r s q0 n0).rc = 0 →
      lensy_mag3 (lensy_intersect_sphere r s q0 n0).n = 1) ∧
    (∀ (r : Ray) (p : lensy_paraboloid_struct) (q0 n0 : Vec3),
      p.f ≠ ⟨0, 0, 0⟩ → (lensy_intersect_paraboloid r p q0 n0).rc = 0 →
      lensy_mag3 (lensy_intersect_paraboloid r p q0 n0).n = 1) ∧
    (∀ (r : Ray) (c : lensy_cylinder_struct) (q0 n0 : Vec3),
      c.va ≠ ⟨0, 0, 0⟩ →
      vsub c.a (smul (lensy_inner3 c.a (vdiv c.va (lensy_mag3 c.va)))
        (vdiv c.va (lensy_mag3 c.va))) ≠ ⟨0, 0, 0⟩ →
      (lensy_intersect_cylinder r c q0 n0).rc = 0 →
      lensy_mag3 (lensy_intersect_cylinder r c q0 n0).n = 1) ∧
    (∀ (r : Ray) (hs : lensy_hyperboloid_struct) (q0 n0 : Vec3),
      hs.a ≠ ⟨0, 0, 0⟩ → hs.e > 1 →
      (lensy_intersect_hyperboloid r hs q0 n0).rc = 0 →
      lensy_mag3 (lensy_intersect_hyperboloid r hs q0 n0).n = 1) := by
  refine ⟨?_, ?_, ?_, ?_, ?_⟩
  · intro r p q0 n0 _ h
    obtain ⟨t, _, _, hu⟩ := lensy_intersect_plane_hit h
    exact mag3_eq_one_of_inner hu
  · intro r s q0 n0 _ h
    rcases lensy_intersect_sphere_cases r s q0 n0 with ⟨t, heq⟩ | hrc
    · rw [heq] at h ⊢
      exact mag3_eq_one_of_inner (lensy_intersect_sphere_tail_hit h).2
    · rw [h] at hrc
      exact absurd hrc (by norm_num)
  · intro r p q0 n0 hf h
    rcases lensy_intersect_paraboloid_cases r p q0 n0 with ⟨t, heq⟩ | hrc
    · rw [heq] at h ⊢
      exact mag3_eq_one_of_inner (lensy_intersect_paraboloid_tail_hit hf h).2
    · rw [h] at hrc
      exact absurd hrc (by norm_num)
  · intro r c q0 n0 _ _ h
    rcases lensy_intersect_cylinder_cases r c q0 n0 with ⟨t, heq⟩ | hrc
    · rw [heq] at h ⊢
      exact mag3_eq_one_of_inner (lensy_intersect_cylinder_tail_hit h).2
    · rw [h] at hrc
      exact absurd hrc (by norm_num)
  · intro r hs q0 n0 _ _ h
    rcases lensy_intersect_hyperboloid_cases r hs q0 n0 with ⟨t, heq⟩ | hrc
    · rw [heq] at h ⊢
      exact mag3_eq_one_of_inner (lensy_intersect_hyperboloid_tail_hit h).2
    · rw [h] at hrc
      exact absurd hrc (by norm_num)

/-- Witness for C3, at the paraboloid of test scenario 2: vertex at the
origin, `f = (1,0,0)`, aperture 4, ray from `(2,2,0)` toward `(-1,0,0)`:
the hit is at `(1,2,0)` and the returned normal has magnitude 1. -/
theorem claim_C3_normals_unit_witness :
    (⟨1, 0, 0⟩ : Vec3) ≠ ⟨0, 0, 0⟩ ∧
    (lensy_intersect_paraboloid ⟨⟨2, 2, 0⟩, ⟨-1, 0, 0⟩, 1, 0, 0, 0⟩
      ⟨⟨0, 0, 0⟩, ⟨1, 0, 0⟩, 4⟩ ⟨0, 0, 0⟩ ⟨0, 0, 0⟩).rc = 0 ∧
    lensy_mag3 (lensy_intersect_paraboloid ⟨⟨2, 2, 0⟩, ⟨-1, 0, 0⟩, 1, 0, 0, 0⟩
      ⟨⟨0, 0, 0⟩, ⟨1, 0, 0⟩, 4⟩ ⟨0, 0, 0⟩ ⟨0, 0, 0⟩).n = 1 := by
  have hf : (⟨1, 0, 0⟩ : Vec3) ≠ ⟨0, 0, 0⟩ := by
    intro h0
    exact absurd (congrArg Vec3.x h0) (by norm_num)
  have hrc : (lensy_intersect_paraboloid ⟨⟨2, 2, 0⟩, ⟨-1, 0, 0⟩, 1, 0, 0, 0⟩
      ⟨⟨0, 0, 0⟩, ⟨1, 0, 0⟩, 4⟩ ⟨0, 0, 0⟩ ⟨0, 0, 0⟩).rc = 0 := by
    simp only [lensy_intersect_paraboloid, lensy_intersect_paraboloid_tail,
      lensy_inner3, lensy_mag3, vadd, vsub, smul, vdiv]
    norm_num [Real.sqrt_one, sqrt_four]
  exact ⟨hf, hrc, claim_C3_normals_unit.2.2.1 _ _ _ _ hf hrc⟩

/-- C1 (amended): whenever an intersection routine returns `Hit{q, n}`,
there exists a real `t` with `q = p + t*d`; for the plane routine moreover
`t >= 0`.  (The original claim's `t > 0` fails: the quadric routines never
check the sign of the selected root — see the counterexample.) -/
theorem claim_C1_amended_hit_on_ray :
    (∀ (r : Ray) (p : lensy_plane_struct) (q0 n0 : Vec3),
      (lensy_intersect_plane r p q0 n0).rc = 0 →
      ∃ t : ℝ, 0 ≤ t ∧
        (lensy_intersect_plane r p q0 n0).q = vadd r.p (smul t r.d)) ∧
    (∀ (r : Ray) (s : lensy_sphere_struct) (q0 n0 : Vec3),
      (lensy_intersect_sphere r s q0 n0).rc = 0 →
      ∃ t : ℝ,
        (lensy_intersect_sphere r s q0 n0).q = vadd r.p (smul t r.d)) ∧
    (∀ (r : Ray) (p : lensy_paraboloid_struct) (q0 n0 : Vec3),
      (lensy_intersect_paraboloid r p q0 n0).rc = 0 →
      ∃ t : ℝ,
        (lensy_intersect_paraboloid r p q0 n0).q = vadd r.p (smul t r.d)) ∧
    (∀ (r : Ray) (c : lensy_cylinder_struct) (q0 n0 : Vec3),
      (lensy_intersect_cylinder r c q0 n0).rc = 0 →
      ∃ t : ℝ,
        (lensy_intersect_cylinder r c q0 n0).q = vadd r.p (smul t r.d)) ∧
    (∀ (r : Ray) (hs : lensy_hyperboloid_struct) (q0 n0 : Vec3),
      (lensy_intersect_hyperboloid r hs q0 n0).rc = 0 →
      ∃ t : ℝ,
        (lensy_intersect_hyperboloid r hs q0 n0).q = vadd r.p (smul t r.d)) := by
  refine ⟨?_, ?_, ?_, ?_, ?_⟩
  · intro r p q0 n0 h
    obtain ⟨t, ht, hq, _⟩ := lensy_intersect_plane_hit h
    exact ⟨t, ht, hq⟩
  · intro r s q0 n0 h
    rcases lensy_intersect_sphere_cases r s q0 n0 with ⟨t, heq⟩ | hrc
    · rw [heq] at h ⊢
      exact ⟨t, (lensy_intersect_sphere_tail_hit h).1⟩
    · rw [h] at hrc
      exact absurd hrc (by norm_num)
  · intro r p q0 n0 h
    rcases lensy_intersect_paraboloid_cases r p q0 n0 with ⟨t, heq⟩ | hrc
    · rw [heq] at h ⊢
      refine ⟨t, ?_⟩
      unfold lensy_intersect_paraboloid_tail at h ⊢
      dsimp only at h ⊢
      split_ifs at h ⊢
      · exact absurd h (by norm_num)
      · exact absurd h (by norm_num)
      · rfl
      · rfl
    · rw [h] at hrc
      exact absurd hrc (by norm_num)
  · intro r c q0 n0 h
    rcases lensy_intersect_cylinder_cases r c q0 n0 with ⟨t, heq⟩ | hrc
    · rw [heq] at h ⊢
      exact ⟨t, (lensy_intersect_cylinder_tail_hit h).1⟩
    · rw [h] at hrc
      exact absurd hrc (by norm_num)
  · intro r hs q0 n0 h
    rcases lensy_intersect_hyperboloid_cases r hs q0 n0 with ⟨t, heq⟩ | hrc
    · rw [heq] at h ⊢
      exact ⟨t, (lensy_intersect_hyperboloid_tail_hit h).1⟩
    · rw [h] at hrc
      exact absurd hrc (by norm_num)

/-- Counterexample to C1 as stated: the sphere with vertex `(0,0,0)` and
`vr = (1,0,0)` (center `(1,0,0)`, radius 1), probed by the ray at
`p = (3,0,0)` pointing away with `d = (1,0,0)`, returns `Hit` (code 0), but
the hit point `q = (0,0,0)` is `p + t*d` only for `t = -3 < 0`: no positive
`t` exists, because `lensy_intersect_sphere` never checks the root's sign. -/
theorem claim_C1_counterexample :
    (lensy_intersect_sphere ⟨⟨3, 0, 0⟩, ⟨1, 0, 0⟩, 1, 0, 0, 0⟩
      ⟨⟨0, 0, 0⟩, ⟨1, 0, 0⟩, 1⟩ ⟨0, 0, 0⟩ ⟨0, 0, 0⟩).rc = 0 ∧
    ¬ ∃ t : ℝ, 0 < t ∧
      (lensy_intersect_sphere ⟨⟨3, 0, 0⟩, ⟨1, 0, 0⟩, 1, 0, 0, 0⟩
        ⟨⟨0, 0, 0⟩, ⟨1, 0, 0⟩, 1⟩ ⟨0, 0, 0⟩ ⟨0, 0, 0⟩).q =
        vadd ⟨3, 0, 0⟩ (smul t ⟨1, 0, 0⟩) := by
  have heval : lensy_intersect_sphere ⟨⟨3, 0, 0⟩, ⟨1, 0, 0⟩, 1, 0, 0, 0⟩
      ⟨⟨0, 0, 0⟩, ⟨1, 0, 0⟩, 1⟩ ⟨0, 0, 0⟩ ⟨0, 0, 0⟩ =
      ⟨⟨⟨3, 0, 0⟩, ⟨1, 0, 0⟩, 1, 0, 0, 0⟩, ⟨0, 0, 0⟩, ⟨-1, 0, 0⟩, 0⟩ := by
    simp only [lensy_intersect_sphere, lensy_intersect_sphere_tail,
      lensy_inner3, lensy_mag3, vadd, vsub, smul, vdiv]
    norm_num [Real.sqrt_one, Real.sqrt_zero, sqrt_four]
  rw [heval]
  refine ⟨rfl, ?_⟩
  rintro ⟨t, ht, hq⟩
  have hx : (0 : ℝ) = 3 + t * 1 := congrArg Vec3.x hq
  linarith

/-- Witness for C1 (amended), at test scenario 1: plane `v = (1,0,0)`,
`n = (1,0,0)`, aperture 1, ray from the origin along `(1,0,0)`. -/
theorem claim_C1_amended_hit_on_ray_witness :
    (lensy_intersect_plane ⟨⟨0, 0, 0⟩, ⟨1, 0, 0⟩, 1, 0, 0, 0⟩
      ⟨⟨1, 0, 0⟩, ⟨1, 0, 0⟩, 1⟩ ⟨0, 0, 0⟩ ⟨0, 0, 0⟩).rc = 0 ∧
    ∃ t : ℝ, 0 ≤ t ∧
      (lensy_intersect_plane ⟨⟨0, 0, 0⟩, ⟨1, 0, 0⟩, 1, 0, 0, 0⟩
        ⟨⟨1, 0, 0⟩, ⟨1, 0, 0⟩, 1⟩ ⟨0, 0, 0⟩ ⟨0, 0, 0⟩).q =
        vadd ⟨0, 0, 0⟩ (smul t ⟨1, 0, 0⟩) := by
  have hrc : (lensy_intersect_plane ⟨⟨0, 0, 0⟩, ⟨1, 0, 0⟩, 1, 0, 0, 0⟩
      ⟨⟨1, 0, 0⟩, ⟨1, 0, 0⟩, 1⟩ ⟨0, 0, 0⟩ ⟨0, 0, 0⟩).rc = 0 := by
    simp only [lensy_intersect_plane, lensy_inner3, lensy_mag3, vadd, vsub,
      smul, vdiv]
    norm_num [Real.sqrt_one, Real.sqrt_zero]
  exact ⟨hrc, claim_C1_amended_hit_on_ray.1 _ _ _ _ hrc⟩

/-- C5: `lensy_redirect_reflect` with a unit normal `n` sets the ray
position to `q`, updates the direction to `d - 2*<d,n>*n`, and this update
preserves the magnitude of `d` exactly. -/
theorem claim_C5_reflect :
    ∀ (r : Ray) (q n : Vec3), lensy_inner3 n n = 1 →
      (lensy_redirect_reflect r q n).p = q ∧
      (lensy_redirect_reflect r q n).d =
        vsub r.d (smul (2 * lensy_inner3 r.d n) n) ∧
      lensy_mag3 (lensy_redirect_reflect r q n).d = lensy_mag3 r.d := by
  intro r q n hn
  have hn' : n.x * n.x + n.y * n.y + n.z * n.z = 1 := by
    simpa [lensy_inner3] using hn
  refine ⟨rfl, ?_, ?_⟩
  · apply Vec3.ext <;>
      simp only [lensy_redirect_reflect, lensy_inner3, vadd, vsub, smul] <;>
      ring
  · unfold lensy_mag3
    congr 1
    simp only [lensy_redirect_reflect, lensy_inner3, vadd, vsub, smul]
    linear_combination (4 * (r.d.x * n.x + r.d.y * n.y + r.d.z * n.z) ^ 2) *
      hn'

/-- Witness for C5, at `n = (0,0,1)` (unit) and the ray direction
`(1,2,3)`. -/
theorem claim_C5_reflect_witness :
    lensy_inner3 ⟨0, 0, 1⟩ ⟨0, 0, 1⟩ = 1 ∧
    ((lensy_redirect_reflect ⟨⟨0, 0, 0⟩, ⟨1, 2, 3⟩, 1, 0, 0, 0⟩ ⟨7, 8, 9⟩
        ⟨0, 0, 1⟩).p = ⟨7, 8, 9⟩ ∧
      (lensy_redirect_reflect ⟨⟨0, 0, 0⟩, ⟨1, 2, 3⟩, 1, 0, 0, 0⟩ ⟨7, 8, 9⟩
        ⟨0, 0, 1⟩).d =
        vsub ⟨1, 2, 3⟩ (smul (2 * lensy_inner3 ⟨1, 2, 3⟩ ⟨0, 0, 1⟩) ⟨0, 0, 1⟩) ∧
      lensy_mag3 (lensy_redirect_reflect ⟨⟨0, 0, 0⟩, ⟨1, 2, 3⟩, 1, 0, 0, 0⟩
        ⟨7, 8, 9⟩ ⟨0, 0, 1⟩).d = lensy_mag3 ⟨1, 2, 3⟩) := by
  have hn : lensy_inner3 (⟨0, 0, 1⟩ : Vec3) ⟨0, 0, 1⟩ = 1 := by
    norm_num [lensy_inner3]
  exact ⟨hn, claim_C5_reflect ⟨⟨0, 0, 0⟩, ⟨1, 2, 3⟩, 1, 0, 0, 0⟩ ⟨7, 8, 9⟩
    ⟨0, 0, 1⟩ hn⟩

/-- C10: `lensy_redirect_refract` has a third outcome beyond `0` (OK) and
`-1` (total internal reflection): for every ray whose direction is the zero
vector it returns `-2`, with the direction left unchanged and the position
already set to `q`. -/
theorem claim_C10_refract_zero_direction :
    ∀ (r : Ray) (q n : Vec3) (m : ℝ), r.d = ⟨0, 0, 0⟩ →
      (lensy_redirect_refract r q n m).2 = -2 ∧
      (lensy_redirect_refract r q n m).1.d = r.d ∧
      (lensy_redirect_refract r q n m).1.p = q := by
  intro r q n m h0
  have hmag : lensy_mag3 r.d = 0 := mag3_eq_zero.mpr h0
  unfold lensy_redirect_refract
  dsimp only
  rw [if_pos hmag]
  exact ⟨rfl, rfl, rfl⟩

/-- Witness for C10: a null-direction ray. -/
theorem claim_C10_refract_zero_direction_witness :
    (⟨⟨1, 2, 3⟩, ⟨0, 0, 0⟩, 1, 0, 0, 0⟩ : Ray).d = ⟨0, 0, 0⟩ ∧
    ((lensy_redirect_refract ⟨⟨1, 2, 3⟩, ⟨0, 0, 0⟩, 1, 0, 0, 0⟩ ⟨4, 5, 6⟩
        ⟨0, 0, 1⟩ (3 / 2)).2 = -2 ∧
      (lensy_redirect_refract ⟨⟨1, 2, 3⟩, ⟨0, 0, 0⟩, 1, 0, 0, 0⟩ ⟨4, 5, 6⟩
        ⟨0, 0, 1⟩ (3 / 2)).1.d = (⟨⟨1, 2, 3⟩, ⟨0, 0, 0⟩, 1, 0, 0, 0⟩ : Ray).d ∧
      (lensy_redirect_refract ⟨⟨1, 2, 3⟩, ⟨0, 0, 0⟩, 1, 0, 0, 0⟩ ⟨4, 5, 6⟩
        ⟨0, 0, 1⟩ (3 / 2)).1.p = ⟨4, 5, 6⟩) :=
  ⟨rfl, claim_C10_refract_zero_direction ⟨⟨1, 2, 3⟩, ⟨0, 0, 0⟩, 1, 0, 0, 0⟩
    ⟨4, 5, 6⟩ ⟨0, 0, 1⟩ (3 / 2) rfl⟩

/-- C4: for every ray with `|d| > 0`, unit normal `n` and ratio `m >= 0`,
`lensy_redirect_refract` returns `-1` (total internal reflection) exactly
when `m * sigma >= 1`, with `sigma = |u x n|`, `u = -d/|d|` and `n`
reoriented so that `<u, n> >= 0`; in that case the ray is unchanged except
its position, which is set to `q`. -/
theorem claim_C4_refract_tir :
    ∀ (r : Ray) (q n : Vec3) (m : ℝ), 0 < lensy_mag3 r.d →
      lensy_inner3 n n = 1 → 0 ≤ m →
      ((lensy_redirect_refract r q n m).2 = -1 ↔
        1 ≤ m * refract_sigma r n) ∧
      (1 ≤ m * refract_sigma r n →
        (lensy_redirect_refract r q n m).1 = { r with p := q }) := by
  intro r q n m hd _ hm
  have hd0 : ¬ lensy_mag3 r.d = 0 := ne_of_gt hd
  have hsig : 0 ≤ refract_sigma r n := by
    unfold refract_sigma
    exact mag3_nonneg _
  have habs : |m * refract_sigma r n| = m * refract_sigma r n :=
    abs_of_nonneg (mul_nonneg hm hsig)
  unfold lensy_redirect_refract
  unfold refract_sigma at habs hsig ⊢
  dsimp only at habs hsig ⊢
  rw [if_neg hd0]
  constructor
  · constructor
    · intro h
      by_cases hc : 1 ≤ m * lensy_mag3 (lensy_cross3
          (vdiv (vneg r.d) (lensy_mag3 r.d))
          (if lensy_inner3 (vdiv (vneg r.d) (lensy_mag3 r.d)) n < 0
            then vneg n else n))
      · exact hc
      · rw [if_neg (fun hge => hc (habs ▸ hge))] at h
        split_ifs at h
    · intro h1
      rw [if_pos (habs.symm ▸ h1 : 1 ≤ |m * _|)]
  · intro h1
    rw [if_pos (habs.symm ▸ h1 : 1 ≤ |m * _|)]

/-- Witness for C4: grazing ray `d = (1,0,0)` against unit normal
`n = (0,0,1)` with ratio `m = 2`. -/
theorem claim_C4_refract_tir_witness :
    0 < lensy_mag3 ((⟨⟨0, 0, 0⟩, ⟨1, 0, 0⟩, 1, 0, 0, 0⟩ : Ray).d) ∧
    lensy_inner3 ⟨0, 0, 1⟩ ⟨0, 0, 1⟩ = 1 ∧ (0 : ℝ) ≤ 2 ∧
    (((lensy_redirect_refract ⟨⟨0, 0, 0⟩, ⟨1, 0, 0⟩, 1, 0, 0, 0⟩ ⟨5, 5, 5⟩
        ⟨0, 0, 1⟩ 2).2 = -1 ↔
      1 ≤ 2 * refract_sigma ⟨⟨0, 0, 0⟩, ⟨1, 0, 0⟩, 1, 0, 0, 0⟩ ⟨0, 0, 1⟩) ∧
      (1 ≤ 2 * refract_sigma ⟨⟨0, 0, 0⟩, ⟨1, 0, 0⟩, 1, 0, 0, 0⟩ ⟨0, 0, 1⟩ →
        (lensy_redirect_refract ⟨⟨0, 0, 0⟩, ⟨1, 0, 0⟩, 1, 0, 0, 0⟩ ⟨5, 5, 5⟩
          ⟨0, 0, 1⟩ 2).1 =
          { (⟨⟨0, 0, 0⟩, ⟨1, 0, 0⟩, 1, 0, 0, 0⟩ : Ray) with
              p := ⟨5, 5, 5⟩ })) := by
  have hd : 0 < lensy_mag3 ((⟨⟨0, 0, 0⟩, ⟨1, 0, 0⟩, 1, 0, 0, 0⟩ : Ray).d) := by
    norm_num [lensy_mag3, lensy_inner3, Real.sqrt_one]
  have hn : lensy_inner3 (⟨0, 0, 1⟩ : Vec3) ⟨0, 0, 1⟩ = 1 := by
    norm_num [lensy_inner3]
  exact ⟨hd, hn, by norm_num,
    claim_C4_refract_tir ⟨⟨0, 0, 0⟩, ⟨1, 0, 0⟩, 1, 0, 0, 0⟩ ⟨5, 5, 5⟩
      ⟨0, 0, 1⟩ 2 hd hn (by norm_num)⟩

/-- C8 (amended): for a valid detector (`vx x vy` non-zero),
`lensy_init_ccd` allocates an image buffer of `Nx*Ny` 16-bit samples
(`b_size = 2*Nx*Ny` bytes) but never writes it: every sample reads whatever
the indeterminate `malloc` block held, so the buffer is not
zero-initialized by this function (both example drivers `memset` it to
zero immediately after the call). -/
theorem claim_C8_amended_init_ccd :
    ∀ (ccd : lensy_ccd_struct) (heap : ℕ → ℕ),
      lensy_cross3 ccd.vx ccd.vy ≠ ⟨0, 0, 0⟩ →
      ∃ out, lensy_init_ccd ccd heap = some out ∧
        out.b_size = 2 * ccd.x_nmax * ccd.y_nmax ∧
        ∀ i, out.b i = heap i := by
  intro ccd heap hc
  unfold lensy_init_ccd
  dsimp only
  rw [if_neg (fun h0 => hc (mag3_eq_zero.mp h0))]
  exact ⟨_, rfl, rfl, fun i => rfl⟩

/-- Counterexample to C8 as stated: with unit pixel axes `(1,0,0)`,
`(0,1,0)` and a 1x1 detector, if the `malloc` block happens to hold the
value 7 then pixel 0 of the freshly initialized buffer reads 7, not 0:
`lensy_init_ccd` calls `malloc`, not `calloc`, and never clears the
buffer. -/
theorem claim_C8_counterexample :
    ∃ out, lensy_init_ccd ⟨⟨0, 0, 0⟩, ⟨1, 0, 0⟩, ⟨0, 1, 0⟩, 1, 1⟩
        (fun _ => 7) = some out ∧
      out.b 0 = 7 ∧ (7 : ℕ) ≠ 0 := by
  have hc : ¬ lensy_mag3 (lensy_cross3 ⟨1, 0, 0⟩ ⟨0, 1, 0⟩) = 0 := by
    norm_num [lensy_cross3, lensy_mag3, lensy_inner3, Real.sqrt_one]
  unfold lensy_init_ccd
  dsimp only
  rw [if_neg hc]
  exact ⟨_, rfl, rfl, by norm_num⟩

/-- Witness for C8 (amended): a 2x3 detector with unit pixel axes; sample
`i` of the buffer reads back the heap contents `i`. -/
theorem claim_C8_amended_init_ccd_witness :
    lensy_cross3 ⟨1, 0, 0⟩ ⟨0, 1, 0⟩ ≠ (⟨0, 0, 0⟩ : Vec3) ∧
    ∃ out, lensy_init_ccd ⟨⟨0, 0, 0⟩, ⟨1, 0, 0⟩, ⟨0, 1, 0⟩, 2, 3⟩
        (fun i => i) = some out ∧
      out.b_size = 2 * 2 * 3 ∧ ∀ i, out.b i = i := by
  have hc : lensy_cross3 ⟨1, 0, 0⟩ ⟨0, 1, 0⟩ ≠ (⟨0, 0, 0⟩ : Vec3) := by
    intro h0
    exact absurd (congrArg Vec3.z h0) (by norm_num [lensy_cross3])
  exact ⟨hc, claim_C8_amended_init_ccd
    ⟨⟨0, 0, 0⟩, ⟨1, 0, 0⟩, ⟨0, 1, 0⟩, 2, 3⟩ (fun i => i) hc⟩

theorem beam_steps_mem {beam_dia beam_step : ℝ} (hs : 0 < beam_step)
    (i : ℕ) : i < beam_steps beam_dia beam_step ↔
      (i : ℝ) * beam_step < beam_dia := by
  unfold beam_steps
  rw [Int.lt_toNat, Int.lt_ceil]
  push_cast
  rw [lt_div_iff₀ hs]

/-- C7 (amended): for `|d0| > 0` and pitch `s > 0`, `lensy_beam` emits
exactly the rays whose position offsets `(d0, d1)` run over the step
sequence starting at `-D/2` with pitch `s` (iteration `k` occurs iff
`k*s < D`), restricted to `sqrt(d0^2 + d1^2) <= D/2`; each emitted ray
shares direction, wavelength and color with the axis ray and sits at
`p0 + d0*u0 + d1*u1`.  (The original claim's integer lattice `(i*s, j*s)`
is wrong: the code's offsets are shifted by `-D/2` and stop short of
`+D/2` — see the counterexample.) -/
theorem claim_C7_amended_beam :
    (∀ (pr : Ray) (beam_dia beam_step : ℝ) (r' : Ray),
      lensy_mag3 pr.d ≠ 0 → 0 < beam_step →
      (r' ∈ lensy_beam pr beam_dia beam_step ↔
        ∃ i j : ℕ, (i : ℝ) * beam_step < beam_dia ∧
          (j : ℝ) * beam_step < beam_dia ∧
          Real.sqrt ((-beam_dia / 2 + (i : ℝ) * beam_step) *
              (-beam_dia / 2 + (i : ℝ) * beam_step) +
            (-beam_dia / 2 + (j : ℝ) * beam_step) *
              (-beam_dia / 2 + (j : ℝ) * beam_step)) ≤ beam_dia / 2 ∧
          r' = beam_ray pr beam_dia beam_step i j)) ∧
    (∀ (pr : Ray) (beam_dia beam_step : ℝ) (i j : ℕ),
      (beam_ray pr beam_dia beam_step i j).p =
        vadd (vadd pr.p (smul (-beam_dia / 2 + (i : ℝ) * beam_step)
          (beam_u0 pr))) (smul (-beam_dia / 2 + (j : ℝ) * beam_step)
          (beam_u1 pr)) ∧
      (beam_ray pr beam_dia beam_step i j).d = pr.d ∧
      (beam_ray pr beam_dia beam_step i j).wavelength = pr.wavelength ∧
      (beam_ray pr beam_dia beam_step i j).red = pr.red ∧
      (beam_ray pr beam_dia beam_step i j).green = pr.green ∧
      (beam_ray pr beam_dia beam_step i j).blue = pr.blue) := by
  constructor
  · intro pr beam_dia beam_step r' hd hs
    unfold lensy_beam
    dsimp only
    rw [if_neg hd]
    simp only [List.mem_flatMap, List.mem_filterMap, List.mem_range]
    constructor
    · rintro ⟨i, hi, j, hj, hsome⟩
      rw [beam_steps_mem hs] at hi hj
      split_ifs at hsome with hgt
      rw [Option.some_inj] at hsome
      exact ⟨i, j, hi, hj, not_lt.mp hgt, hsome.symm⟩
    · rintro ⟨i, j, hi, hj, hle, hr⟩
      refine ⟨i, (beam_steps_mem hs i).mpr hi, j,
        (beam_steps_mem hs j).mpr hj, ?_⟩
      rw [if_neg (not_lt.mpr hle)]
      exact congrArg some hr.symm
  · intro pr beam_dia beam_step i j
    exact ⟨rfl, rfl, rfl, rfl, rfl, rfl⟩

/-- Counterexample to C7 as stated: axis ray at the origin along `(1,0,0)`,
`D = 2`, `s = 1`.  The basis is `u0 = (0,1,0)`, `u1 = (0,0,1)`; the integer
lattice point `(i, j) = (1, 0)` satisfies `(i*s)^2 + (j*s)^2 <= (D/2)^2`
and the claim places a ray at `p0 + 1*s*u0 = (0,1,0)`, but no emitted ray
has that position: the code's offsets run over `{-1, 0}`, not `{-1, 0, 1}`,
so the three emitted rays sit at `(0,-1,0)`, `(0,0,-1)` and `(0,0,0)`. -/
theorem claim_C7_counterexample :
    ((1 : ℝ) * 1) * ((1 : ℝ) * 1) + ((0 : ℝ) * 1) * ((0 : ℝ) * 1) ≤
      (2 / 2) * (2 / 2) ∧
    vadd (vadd (⟨0, 0, 0⟩ : Vec3)
        (smul ((1 : ℝ) * 1) (beam_u0 ⟨⟨0, 0, 0⟩, ⟨1, 0, 0⟩, 1, 0, 0, 0⟩)))
      (smul ((0 : ℝ) * 1) (beam_u1 ⟨⟨0, 0, 0⟩, ⟨1, 0, 0⟩, 1, 0, 0, 0⟩)) =
      ⟨0, 1, 0⟩ ∧
    ¬ (⟨0, 1, 0⟩ : Vec3) ∈
      (lensy_beam ⟨⟨0, 0, 0⟩, ⟨1, 0, 0⟩, 1, 0, 0, 0⟩ 2 1).map Ray.p := by
  have hu0 : beam_u0 ⟨⟨0, 0, 0⟩, ⟨1, 0, 0⟩, 1, 0, 0, 0⟩ = ⟨0, 1, 0⟩ := by
    unfold beam_u0
    dsimp only
    norm_num [lensy_mag3, lensy_inner3, vdiv, Real.sqrt_one]
  have hu1 : beam_u1 ⟨⟨0, 0, 0⟩, ⟨1, 0, 0⟩, 1, 0, 0, 0⟩ = ⟨0, 0, 1⟩ := by
    unfold beam_u1
    rw [hu0]
    norm_num [lensy_cross3, vdiv, lensy_mag3, lensy_inner3, Real.sqrt_one]
  have h2 : (1 : ℝ) < Real.sqrt 2 :=
    Real.lt_sqrt_of_sq_lt (by norm_num)
  have hK : beam_steps 2 1 = 2 := by
    unfold beam_steps
    rw [show ((2 : ℝ) / 1 : ℝ) = ((2 : ℤ) : ℝ) by norm_num, Int.ceil_intCast]
    rfl
  have hd : ¬ lensy_mag3 ((⟨⟨0, 0, 0⟩, ⟨1, 0, 0⟩, 1, 0, 0, 0⟩ : Ray).d) = 0 := by
    norm_num [lensy_mag3, lensy_inner3, Real.sqrt_one]
  refine ⟨by norm_num, by rw [hu0, hu1]; norm_num [vadd, smul], ?_⟩
  unfold lensy_beam
  dsimp only
  rw [if_neg hd, hK]
  simp only [List.mem_map, List.mem_flatMap, List.mem_filterMap,
    List.mem_range]
  rintro ⟨r', ⟨i, hi, j, hj, hsome⟩, hp⟩
  interval_cases i <;> interval_cases j
  · rw [if_pos (by norm_num [h2])] at hsome
    exact absurd hsome (by simp)
  · rw [if_neg (by norm_num [Real.sqrt_one])] at hsome
    rw [Option.some_inj] at hsome
    rw [← hsome] at hp
    unfold beam_ray at hp
    rw [hu0, hu1] at hp
    have hy := congrArg Vec3.y hp
    norm_num [vadd, smul] at hy
  · rw [if_neg (by norm_num [Real.sqrt_one])] at hsome
    rw [Option.some_inj] at hsome
    rw [← hsome] at hp
    unfold beam_ray at hp
    rw [hu0, hu1] at hp
    have hy := congrArg Vec3.y hp
    norm_num [vadd, smul] at hy
  · rw [if_neg (by norm_num [Real.sqrt_zero])] at hsome
    rw [Option.some_inj] at hsome
    rw [← hsome] at hp
    unfold beam_ray at hp
    rw [hu0, hu1] at hp
    have hy := congrArg Vec3.y hp
    norm_num [vadd, smul] at hy

/-- Witness for C7 (amended): the center lattice point `(i, j) = (1, 1)`
(offsets `(0, 0)`) of the `D = 2`, `s = 1` beam is emitted. -/
theorem claim_C7_amended_beam_witness :
    lensy_mag3 ((⟨⟨0, 0, 0⟩, ⟨1, 0, 0⟩, 1, 0, 0, 0⟩ : Ray).d) ≠ 0 ∧
    (0 : ℝ) < 1 ∧
    beam_ray ⟨⟨0, 0, 0⟩, ⟨1, 0, 0⟩, 1, 0, 0, 0⟩ 2 1 1 1 ∈
      lensy_beam ⟨⟨0, 0, 0⟩, ⟨1, 0, 0⟩, 1, 0, 0, 0⟩ 2 1 := by
  have hd : lensy_mag3 ((⟨⟨0, 0, 0⟩, ⟨1, 0, 0⟩, 1, 0, 0, 0⟩ : Ray).d) ≠ 0 := by
    norm_num [lensy_mag3, lensy_inner3, Real.sqrt_one]
  refine ⟨hd, by norm_num, ?_⟩
  exact (claim_C7_amended_beam.1 ⟨⟨0, 0, 0⟩, ⟨1, 0, 0⟩, 1, 0, 0, 0⟩ 2 1 _
    hd (by norm_num)).mpr
    ⟨1, 1, by norm_num, by norm_num, by norm_num [Real.sqrt_zero], rfl⟩

theorem cone_nshells_10_2 : cone_nshells 10 2 = 2 := by
  unfold cone_nshells DEG2RAD
  rw [show ((0.01745329252 : ℝ) * 10 / 2 / (0.01745329252 * 2) : ℝ) = 5 / 2 by
    norm_num]
  rw [Int.floor_eq_iff]
  constructor <;> norm_num

theorem cone_m1 : cone_mrays (DEG2RAD * 2) 1 = 6 := by
  unfold cone_mrays DEG2RAD PI
  have hx0 : (((1 : ℤ) : ℝ)) * ((0.01745329252 : ℝ) * 2) = 0.03490658504 := by
    norm_num
  rw [hx0]
  have hs1 : Real.sin 0.03490658504 < 0.03490658504 :=
    Real.sin_lt (by norm_num)
  have hs2 : (0.03490658504 : ℝ) - 0.03490658504 ^ 3 / 4 <
      Real.sin 0.03490658504 :=
    Real.sin_gt_sub_cube (by norm_num) (by norm_num)
  rw [Int.floor_eq_iff]
  constructor
  · rw [le_div_iff₀ (by norm_num : (0:ℝ) < 0.01745329252 * 2)]
    push_cast
    nlinarith [hs2]
  · rw [div_lt_iff₀ (by norm_num : (0:ℝ) < 0.01745329252 * 2)]
    push_cast
    nlinarith [hs1]

theorem cone_m2 : cone_mrays (DEG2RAD * 2) 2 = 12 := by
  unfold cone_mrays DEG2RAD PI
  have hx0 : (((2 : ℤ) : ℝ)) * ((0.01745329252 : ℝ) * 2) = 0.06981317008 := by
    norm_num
  rw [hx0]
  have hs1 : Real.sin 0.06981317008 < 0.06981317008 :=
    Real.sin_lt (by norm_num)
  have hs2 : (0.06981317008 : ℝ) - 0.06981317008 ^ 3 / 4 <
      Real.sin 0.06981317008 :=
    Real.sin_gt_sub_cube (by norm_num) (by norm_num)
  rw [Int.floor_eq_iff]
  constructor
  · rw [le_div_iff₀ (by norm_num : (0:ℝ) < 0.01745329252 * 2)]
    push_cast
    nlinarith [hs2]
  · rw [div_lt_iff₀ (by norm_num : (0:ℝ) < 0.01745329252 * 2)]
    push_cast
    nlinarith [hs1]

theorem cone_m3 : cone_mrays (DEG2RAD * 2) 3 = 18 := by
  unfold cone_mrays DEG2RAD PI
  have hx0 : (((3 : ℤ) : ℝ)) * ((0.01745329252 : ℝ) * 2) = 0.10471975512 := by
    norm_num
  rw [hx0]
  have hs1 : Real.sin 0.10471975512 < 0.10471975512 :=
    Real.sin_lt (by norm_num)
  have hs2 : (0.10471975512 : ℝ) - 0.10471975512 ^ 3 / 4 <
      Real.sin 0.10471975512 :=
    Real.sin_gt_sub_cube (by norm_num) (by norm_num)
  rw [Int.floor_eq_iff]
  constructor
  · rw [le_div_iff₀ (by norm_num : (0:ℝ) < 0.01745329252 * 2)]
    push_cast
    nlinarith [hs2]
  · rw [div_lt_iff₀ (by norm_num : (0:ℝ) < 0.01745329252 * 2)]
    push_cast
    nlinarith [hs1]

theorem cone_m4 : cone_mrays (DEG2RAD * 2) 4 = 25 := by
  unfold cone_mrays DEG2RAD PI
  have hx0 : (((4 : ℤ) : ℝ)) * ((0.01745329252 : ℝ) * 2) = 0.13962634016 := by
    norm_num
  rw [hx0]
  have hs1 : Real.sin 0.13962634016 < 0.13962634016 :=
    Real.sin_lt (by norm_num)
  have hs2 : (0.13962634016 : ℝ) - 0.13962634016 ^ 3 / 4 <
      Real.sin 0.13962634016 :=
    Real.sin_gt_sub_cube (by norm_num) (by norm_num)
  rw [Int.floor_eq_iff]
  constructor
  · rw [le_div_iff₀ (by norm_num : (0:ℝ) < 0.01745329252 * 2)]
    push_cast
    nlinarith [hs2]
  · rw [div_lt_iff₀ (by norm_num : (0:ℝ) < 0.01745329252 * 2)]
    push_cast
    nlinarith [hs1]

theorem cone_m5 : cone_mrays (DEG2RAD * 2) 5 = 31 := by
  unfold cone_mrays DEG2RAD PI
  have hx0 : (((5 : ℤ) : ℝ)) * ((0.01745329252 : ℝ) * 2) = 0.1745329252 := by
    norm_num
  rw [hx0]
  have hs1 : Real.sin 0.1745329252 < 0.1745329252 :=
    Real.sin_lt (by norm_num)
  have hs2 : (0.1745329252 : ℝ) - 0.1745329252 ^ 3 / 4 <
      Real.sin 0.1745329252 :=
    Real.sin_gt_sub_cube (by norm_num) (by norm_num)
  rw [Int.floor_eq_iff]
  constructor
  · rw [le_div_iff₀ (by norm_num : (0:ℝ) < 0.01745329252 * 2)]
    push_cast
    nlinarith [hs2]
  · rw [div_lt_iff₀ (by norm_num : (0:ℝ) < 0.01745329252 * 2)]
    push_cast
    nlinarith [hs1]

theorem lensy_cone_length_10_2 (junk : ℤ × ℤ × ℤ) :
    (lensy_cone ⟨⟨0, 0, 0⟩, ⟨1, 0, 0⟩, 1, 0, 0, 0⟩ 10 2 junk).length = 19 := by
  have hd : ¬ lensy_mag3 ((⟨⟨0, 0, 0⟩, ⟨1, 0, 0⟩, 1, 0, 0, 0⟩ : Ray).d) = 0 := by
    norm_num [lensy_mag3, lensy_inner3, Real.sqrt_one]
  unfold lensy_cone
  dsimp only
  rw [if_neg hd, cone_nshells_10_2]
  have h1 : ((0 : ℕ) : ℤ) + 1 = 1 := by norm_num
  have h2 : ((1 : ℕ) : ℤ) + 1 = 2 := by norm_num
  simp only [show ((2 : ℤ)).toNat = 2 from rfl, List.range_succ,
    List.range_zero, List.nil_append, List.cons_append, List.flatMap_cons,
    List.flatMap_nil, List.length_cons, List.length_append, List.length_map,
    List.length_range, List.length_nil, h1, h2, cone_m1, cone_m2]
  rfl

/-- C6 (amended): for apex direction `(1,0,0)`, cone diameter 10 degrees
and step 2 degrees (and every allocation succeeding), `lensy_cone` emits
`1 + sum over j = 1..2 of floor(sin(j*2deg) * 2*PI / (2deg in radians))`
rays — the axial ray plus `floor((10/2)/2) = 2` shells of 6 and 12 rays —
19 in total.  (The original claim's five shells contradict its own rule
`j = 1..floor((Theta/2)/Delta) = 2`; see the counterexample.) -/
theorem claim_C6_amended_cone_count :
    ∀ junk : ℤ × ℤ × ℤ,
      cone_nshells 10 2 = 2 ∧
      (lensy_cone ⟨⟨0, 0, 0⟩, ⟨1, 0, 0⟩, 1, 0, 0, 0⟩ 10 2 junk).length =
        1 + ((cone_mrays (DEG2RAD * 2) 1).toNat +
             (cone_mrays (DEG2RAD * 2) 2).toNat) ∧
      (lensy_cone ⟨⟨0, 0, 0⟩, ⟨1, 0, 0⟩, 1, 0, 0, 0⟩ 10 2 junk).length =
        19 := by
  intro junk
  refine ⟨cone_nshells_10_2, ?_, lensy_cone_length_10_2 junk⟩
  rw [lensy_cone_length_10_2 junk, cone_m1, cone_m2]
  rfl

/-- Counterexample to C6 as stated: the code emits `floor((10/2)/2) = 2`
shells, so the count is `1 + 6 + 12 = 19`; the claimed five-shell sum
`1 + sum over j = 1..5 of floor(sin(j*2deg) * 2*PI/Delta)` evaluates to
`1 + 6 + 12 + 18 + 25 + 31 = 93` (and to 46 under the reading
`180deg/2deg = 90` of the claim's factor), neither of which is 19. -/
theorem claim_C6_counterexample :
    (lensy_cone ⟨⟨0, 0, 0⟩, ⟨1, 0, 0⟩, 1, 0, 0, 0⟩ 10 2 (0, 0, 0)).length =
      19 ∧
    1 + (([1, 2, 3, 4, 5] : List ℤ).map
      (fun j => (cone_mrays (DEG2RAD * 2) j).toNat)).sum = 93 ∧
    (19 : ℕ) ≠ 93 := by
  refine ⟨lensy_cone_length_10_2 (0, 0, 0), ?_, by norm_num⟩
  simp only [List.map_cons, List.map_nil, List.sum_cons, List.sum_nil,
    cone_m1, cone_m2, cone_m3, cone_m4, cone_m5]
  rfl

/-- C2 (amended): whenever `lensy_redirect_diffract` succeeds, the outgoing
direction is `|d| * (gamma*t1 + (cos phi_o / k)*n1 + (sin phi_o / k)*a1)`
where the outgoing in-plane sine satisfies
`sin phi_o = (sin phi_i / lambda_i' + m / Lambda) * lambda_o'` with the
spacing `Lambda = |a|`, the magnitude of the FULL grating vector — not of
its projection `a_perp` into the surface plane as the spec claims (the two
coincide exactly when `a` is perpendicular to `n`, which is what the
code's own interface comment requires of `a`). -/
theorem claim_C2_amended_diffract_spacing :
    ∀ (r : Ray) (q n a : Vec3) (wli wlt : ℝ) (m : ℤ) (r' : Ray),
      lensy_redirect_diffract r q n a wli wlt m = (r', 0) →
      ∃ φo : ℝ,
        r'.d = smul (lensy_mag3 r.d)
          (vadd (vadd (smul (grat_gamma r n a) (grat_that n a))
                      (smul (Real.cos φo / grat_k r n a) (grat_n1 n)))
                (smul (Real.sin φo / grat_k r n a) (grat_ahat n a))) ∧
        Real.sin φo = code_inplane_sine r n a wli wlt m := by
  intro r q n a wli wlt m r' h
  unfold lensy_redirect_diffract at h
  dsimp only at h
  split_ifs at h with h1 h2 h3 h4 h5 h6
  · simp at h
  · simp at h
  · simp at h
  · simp at h
  · simp at h
  · simp at h
  · rw [Prod.mk.injEq] at h
    obtain ⟨hr', -⟩ := h
    refine ⟨Real.arcsin ((Real.sin (atan2
        (lensy_inner3 (vdiv r.d (lensy_mag3 r.d)) (grat_ahat n a))
        (-(lensy_inner3 (vdiv r.d (lensy_mag3 r.d)) (grat_n1 n)))) /
        (wli * grat_k r n a) + (m : ℝ) / lensy_mag3 a) *
        (wlt * grat_k r n a)), ?_, ?_⟩
    · rw [← hr']
      rfl
    · rw [Real.sin_arcsin]
      · rfl
      · have := abs_lt.mp (not_le.mp h6)
        exact le_of_lt this.1
      · have := abs_lt.mp (not_le.mp h6)
        exact le_of_lt this.2

theorem sqrt_two_mul_self : Real.sqrt 2 * Real.sqrt 2 = 2 :=
  Real.mul_self_sqrt (by norm_num)

theorem sqrt_two_lt_two : Real.sqrt 2 < 2 := by
  nlinarith [sqrt_two_mul_self, Real.sqrt_pos.mpr (show (0:ℝ) < 2 by norm_num)]

theorem one_le_sqrt_two : (1 : ℝ) ≤ Real.sqrt 2 := by
  nlinarith [sqrt_two_mul_self, Real.sqrt_nonneg 2]

theorem sqrt_two_ne_zero : Real.sqrt 2 ≠ 0 :=
  ne_of_gt (Real.sqrt_pos.mpr (by norm_num))

theorem inv_sqrt_two_half : (Real.sqrt 2)⁻¹ * (1 / 2) = Real.sqrt 2 / 4 := by
  field_simp
  nlinarith [sqrt_two_mul_self]

theorem sin_arcsin_sqrt2_quarter :
    Real.sin (Real.arcsin (Real.sqrt 2 / 4)) = Real.sqrt 2 / 4 :=
  Real.sin_arcsin (by nlinarith [Real.sqrt_nonneg 2])
    (by nlinarith [sqrt_two_lt_two])

theorem diffract_example_eval :
    lensy_redirect_diffract ⟨⟨0, 0, 0⟩, ⟨0, 0, -1⟩, 1, 0, 0, 0⟩ ⟨0, 0, 0⟩
      ⟨0, 0, 1⟩ ⟨1, 0, 1⟩ (1 / 2) (1 / 2) 1 =
    (⟨⟨0, 0, 0⟩, ⟨Real.sqrt 2 / 4, 0,
        Real.cos (Real.arcsin (Real.sqrt 2 / 4))⟩, 1, 0, 0, 0⟩, 0) := by
  have hs1 : Real.sqrt 1 = 1 := Real.sqrt_one
  unfold lensy_redirect_diffract
  dsimp only
  split_ifs with h1 h2 h3 h4 h5 h6
  · norm_num [lensy_mag3, lensy_inner3, hs1] at h1
  · norm_num [lensy_mag3, lensy_inner3, hs1] at h2
  · norm_num [lensy_mag3, lensy_inner3, vdiv, vsub, smul, hs1] at h3
  · norm_num [lensy_mag3, lensy_inner3, lensy_cross3, vdiv, vsub, smul,
      hs1] at h4
  · norm_num [lensy_mag3, lensy_inner3, lensy_cross3, vdiv, vsub, smul,
      hs1] at h5
  · norm_num [lensy_mag3, lensy_inner3, lensy_cross3, vdiv, vsub, smul,
      atan2, hs1, Real.arctan_zero, Real.sin_zero] at h6
    rw [abs_of_nonneg (by positivity)] at h6
    have hinv : Real.sqrt 2 * (Real.sqrt 2)⁻¹ = 1 :=
      mul_inv_cancel₀ sqrt_two_ne_zero
    have hi2 : (Real.sqrt 2)⁻¹ ≥ 2 := by linarith [h6]
    nlinarith [hinv, hi2, one_le_sqrt_two]
  · norm_num [lensy_mag3, lensy_inner3, lensy_cross3, vdiv, vsub, vadd,
      smul, atan2, hs1, Real.arctan_zero, Real.sin_zero, inv_sqrt_two_half,
      sin_arcsin_sqrt2_quarter]

theorem grat_ahat_example : grat_ahat ⟨0, 0, 1⟩ ⟨1, 0, 1⟩ = ⟨1, 0, 0⟩ := by
  unfold grat_ahat grat_aperp grat_n1
  norm_num [lensy_inner3, lensy_mag3, vdiv, vsub, smul, Real.sqrt_one]

theorem spec_inplane_sine_example :
    spec_inplane_sine ⟨⟨0, 0, 0⟩, ⟨0, 0, -1⟩, 1, 0, 0, 0⟩ ⟨0, 0, 1⟩
      ⟨1, 0, 1⟩ (1 / 2) (1 / 2) 1 = 1 / 2 := by
  unfold spec_inplane_sine grat_phii grat_k grat_gamma grat_that grat_ahat
    grat_aperp grat_n1 grat_w0
  norm_num [lensy_inner3, lensy_mag3, lensy_cross3, vdiv, vsub, smul,
    atan2, Real.sqrt_one, Real.arctan_zero, Real.sin_zero]

/-- Counterexample to C2 as stated: plane grating with unit normal
`n = (0,0,1)` and tilted grating vector `a = (1,0,1)` (so `|a| = sqrt 2`
while the projection has `|a_perp| = 1`), normal-incidence ray
`d = (0,0,-1)`, `wli = wlt = 1/2`, order `m = 1`.  The call succeeds and
the outgoing in-plane sine (the component of the unit outgoing direction
along `a_hat`; here `k = 1` and `|d| = 1`) is `sqrt 2 / 4` — the code
divided `m` by `|a| = sqrt 2` — whereas the spec formula with
`Lambda = |a_perp| = 1` predicts `(0 + 1/1) * (1/2) = 1/2`. -/
theorem claim_C2_counterexample :
    (lensy_redirect_diffract ⟨⟨0, 0, 0⟩, ⟨0, 0, -1⟩, 1, 0, 0, 0⟩ ⟨0, 0, 0⟩
      ⟨0, 0, 1⟩ ⟨1, 0, 1⟩ (1 / 2) (1 / 2) 1).2 = 0 ∧
    lensy_inner3 ((lensy_redirect_diffract ⟨⟨0, 0, 0⟩, ⟨0, 0, -1⟩, 1, 0, 0, 0⟩
      ⟨0, 0, 0⟩ ⟨0, 0, 1⟩ ⟨1, 0, 1⟩ (1 / 2) (1 / 2) 1).1.d)
      (grat_ahat ⟨0, 0, 1⟩ ⟨1, 0, 1⟩) = Real.sqrt 2 / 4 ∧
    spec_inplane_sine ⟨⟨0, 0, 0⟩, ⟨0, 0, -1⟩, 1, 0, 0, 0⟩ ⟨0, 0, 1⟩
      ⟨1, 0, 1⟩ (1 / 2) (1 / 2) 1 = 1 / 2 ∧
    Real.sqrt 2 / 4 ≠ (1 / 2 : ℝ) := by
  refine ⟨?_, ?_, spec_inplane_sine_example, ?_⟩
  · rw [diffract_example_eval]
  · rw [diffract_example_eval, grat_ahat_example]
    norm_num [lensy_inner3]
  · intro h0
    have h1 : Real.sqrt 2 = 2 := by linarith [h0]
    nlinarith [sqrt_two_lt_two, h1]

/-- Witness for C2 (amended), at the counterexample configuration: the
call succeeds and the amended grating relation holds there. -/
theorem claim_C2_amended_diffract_spacing_witness :
    lensy_redirect_diffract ⟨⟨0, 0, 0⟩, ⟨0, 0, -1⟩, 1, 0, 0, 0⟩ ⟨0, 0, 0⟩
      ⟨0, 0, 1⟩ ⟨1, 0, 1⟩ (1 / 2) (1 / 2) 1 =
      (⟨⟨0, 0, 0⟩, ⟨Real.sqrt 2 / 4, 0,
          Real.cos (Real.arcsin (Real.sqrt 2 / 4))⟩, 1, 0, 0, 0⟩, 0) ∧
    ∃ φo : ℝ,
      (⟨⟨0, 0, 0⟩, ⟨Real.sqrt 2 / 4, 0,
          Real.cos (Real.arcsin (Real.sqrt 2 / 4))⟩, 1, 0, 0, 0⟩ : Ray).d =
        smul (lensy_mag3 ((⟨⟨0, 0, 0⟩, ⟨0, 0, -1⟩, 1, 0, 0, 0⟩ : Ray).d))
          (vadd (vadd (smul (grat_gamma ⟨⟨0, 0, 0⟩, ⟨0, 0, -1⟩, 1, 0, 0, 0⟩
                  ⟨0, 0, 1⟩ ⟨1, 0, 1⟩)
                (grat_that ⟨0, 0, 1⟩ ⟨1, 0, 1⟩))
              (smul (Real.cos φo / grat_k ⟨⟨0, 0, 0⟩, ⟨0, 0, -1⟩, 1, 0, 0, 0⟩
                  ⟨0, 0, 1⟩ ⟨1, 0, 1⟩) (grat_n1 ⟨0, 0, 1⟩)))
            (smul (Real.sin φo / grat_k ⟨⟨0, 0, 0⟩, ⟨0, 0, -1⟩, 1, 0, 0, 0⟩
                ⟨0, 0, 1⟩ ⟨1, 0, 1⟩) (grat_ahat ⟨0, 0, 1⟩ ⟨1, 0, 1⟩))) ∧
      Real.sin φo = code_inplane_sine ⟨⟨0, 0, 0⟩, ⟨0, 0, -1⟩, 1, 0, 0, 0⟩
        ⟨0, 0, 1⟩ ⟨1, 0, 1⟩ (1 / 2) (1 / 2) 1 :=
  ⟨diffract_example_eval,
   claim_C2_amended_diffract_spacing ⟨⟨0, 0, 0⟩, ⟨0, 0, -1⟩, 1, 0, 0, 0⟩
     ⟨0, 0, 0⟩ ⟨0, 0, 1⟩ ⟨1, 0, 1⟩ (1 / 2) (1 / 2) 1 _
     diffract_example_eval⟩
